import Mathlib

/-!
# balanceTonRayon: scene geometry, mesh tessellation and OBJ loading

A shallow embedding of `src/Object.hpp` and `src/ObjParser.hpp`.

Conventions of the embedding.

* `float` is idealised as an ordered field `α`; the square root of the C++
  library is an explicit function argument `sqrt : α → α`, so every statement
  holds for whatever square root is supplied.  Evaluation on concrete inputs
  uses `ℚ` with `Rat.sqrt`, on values whose root is exact.
* `glm::vec3` is `Vec3 α`; the `glm` operations are written out from their
  library definitions (`normalize v = v * inversesqrt (dot v v)`,
  `inversesqrt x = 1 / sqrt x`).
* `std::vector<T>` is `List T`; an access `xs[i]` outside `0 ≤ i < size` is
  undefined behaviour and is made explicit (`Fault.outOfRange`).
* `std::shared_ptr<Texture>` is `Option τ` for a type `τ` of textures (the
  header `Texture.hpp` is not part of the sources at hand); `none` is the null
  pointer.
* `std::cout` is a list of printed strings.
-/

namespace BalanceTonRayon

/-! ## `glm` vectors -/

/-- Three component vector, `glm::vec3`. -/
@[ext]
structure Vec3 (α : Type) where
  x : α
  y : α
  z : α
deriving DecidableEq, Repr

/-- Two component vector, `glm::vec2`. -/
structure Vec2 (α : Type) where
  x : α
  y : α
deriving DecidableEq, Repr

namespace Vec3

variable {α : Type}

/-- Value-initialised vector `glm::vec3()`: all components zero. -/
def zero [Zero α] : Vec3 α := ⟨0, 0, 0⟩

instance [Zero α] : Inhabited (Vec3 α) := ⟨zero⟩

/-- Componentwise sum, `a + b`. -/
def add [Add α] (a b : Vec3 α) : Vec3 α := ⟨a.x + b.x, a.y + b.y, a.z + b.z⟩

/-- Componentwise difference, `a - b`. -/
def sub [Sub α] (a b : Vec3 α) : Vec3 α := ⟨a.x - b.x, a.y - b.y, a.z - b.z⟩

/-- Product with a scalar on the right, `v * s`. -/
def scale [Mul α] (v : Vec3 α) (s : α) : Vec3 α := ⟨v.x * s, v.y * s, v.z * s⟩

/-- Scalar product `glm::dot`. -/
def dot [Add α] [Mul α] (a b : Vec3 α) : α := a.x * b.x + a.y * b.y + a.z * b.z

/-- Vector product `glm::cross`. -/
def cross [Sub α] [Mul α] (a b : Vec3 α) : Vec3 α :=
  ⟨a.y * b.z - b.y * a.z, a.z * b.x - b.z * a.x, a.x * b.y - b.x * a.y⟩

/-- Inverse square root `glm::inversesqrt x = 1 / sqrt x`. -/
def inversesqrt [One α] [Div α] (sqrt : α → α) (x : α) : α := 1 / sqrt x

/-- Normalisation `glm::normalize v = v * inversesqrt (dot v v)`. -/
def normalize [Field α] (sqrt : α → α) (v : Vec3 α) : Vec3 α :=
  v.scale (inversesqrt sqrt (dot v v))

/-- Euclidean length `glm::length v = sqrt (dot v v)`. -/
def length [Add α] [Mul α] (sqrt : α → α) (v : Vec3 α) : α := sqrt (dot v v)

end Vec3

/-! ## Surfaces (`Object.hpp`) -/

/-- State of a `BasicObject`: the position inherited from `PhysicalObject`,
the material fields, the texture pointer and the `hasTexture` flag. -/
structure BasicObject (α τ : Type) where
  pos : Vec3 α
  color : Vec3 α
  transparency : α
  refractiveIndex : α
  reflexionIndex : α
  albedo : α
  texture : Option τ
  hasTexture : Bool
deriving DecidableEq

namespace BasicObject

variable {α τ : Type}

/-- Constructor `BasicObject(pos, color, t, r, R, a)`.  The member
initialisers are `transparency(t), refractiveIndex(r), reflexionIndex(R),
albedo(a), hasTexture(false)`; the texture pointer is default-constructed,
that is null. -/
def new (pos color : Vec3 α) (t r R a : α) : BasicObject α τ :=
  { pos := pos
    color := color
    transparency := t
    refractiveIndex := r
    reflexionIndex := R
    albedo := a
    texture := none
    hasTexture := false }

/-- Default arguments of the constructor:
`BasicObject(vec3(), vec3(1,1,1), 0, 1, 1, 0.18)`. -/
def newDefault [Field α] : BasicObject α τ :=
  new Vec3.zero ⟨1, 1, 1⟩ 0 1 1 (18 / 100)

/-- Getter `definedTexture()`: returns the flag `hasTexture`. -/
def definedTexture (o : BasicObject α τ) : Bool := o.hasTexture

/-- Getter `getTexture()`: returns the stored pointer. -/
def getTexture (o : BasicObject α τ) : Option τ := o.texture

/-- Setter `setTexture(text)`: stores the pointer and raises the flag. -/
def setTexture (o : BasicObject α τ) (text : Option τ) : BasicObject α τ :=
  { o with texture := text, hasTexture := true }

end BasicObject

/-- State of a `Plane`: a `BasicObject` and a normal. -/
structure Plane (α τ : Type) extends BasicObject α τ where
  normal : Vec3 α

/-- Constructor `Plane(pos, normal, color, t, r, R, a)`, forwarding to
`BasicObject(pos, color, t, r, R, a)`. -/
def Plane.new {α τ : Type} [Field α] (sqrt : α → α) (pos normal color : Vec3 α)
    (t r R a : α) : Plane α τ :=
  { toBasicObject := BasicObject.new pos color t r R a
    normal := Vec3.normalize sqrt normal }

/-- State of a `Sphere`: a `BasicObject` and a radius. -/
structure Sphere (α τ : Type) extends BasicObject α τ where
  radius : α

/-- Constructor `Sphere(pos, color, radius, t, r, R, a)`, forwarding to
`BasicObject(pos, color, t, r, R, a)`. -/
def Sphere.new {α τ : Type} (pos color : Vec3 α) (radius t r R a : α) : Sphere α τ :=
  { toBasicObject := BasicObject.new pos color t r R a
    radius := radius }

/-- State of a `Triangle`: the first vertex is the inherited `pos`. -/
structure Triangle (α τ : Type) extends BasicObject α τ where
  pos1 : Vec3 α
  pos2 : Vec3 α
  normal : Vec3 α
deriving DecidableEq

namespace Triangle

variable {α τ : Type}

/-- Constructor `Triangle(v0, v1, v2, n, color, t, r, R, a)`: the normal is
`normalize(n)`, replaced by `normalize(cross(v1 - v0, v2 - v0))` when
`n.x == 1 && n.y == 1 && n.z == 1`. -/
def new [Field α] [DecidableEq α] (sqrt : α → α) (v0 v1 v2 n color : Vec3 α)
    (t r R a : α) : Triangle α τ :=
  { toBasicObject := BasicObject.new v0 color t r R a
    pos1 := v1
    pos2 := v2
    normal :=
      if n.x = 1 ∧ n.y = 1 ∧ n.z = 1 then
        Vec3.normalize sqrt (Vec3.cross (v1.sub v0) (v2.sub v0))
      else Vec3.normalize sqrt n }

/-- The call `Triangle(v0, v1, v2, n)` with the remaining arguments defaulted:
`color = vec3(1,1,1), t = 0, r = 0, R = 0, a = 0.18`. -/
def ofVertices [Field α] [DecidableEq α] (sqrt : α → α) (v0 v1 v2 n : Vec3 α) :
    Triangle α τ :=
  new sqrt v0 v1 v2 n ⟨1, 1, 1⟩ 0 0 0 (18 / 100)

/-- Method `Triangle::offset(position)`. -/
def offset [Add α] (t : Triangle α τ) (position : Vec3 α) : Triangle α τ :=
  { t with
    pos := t.pos.add position
    pos1 := t.pos1.add position
    pos2 := t.pos2.add position }

end Triangle

/-! ## Polygons and meshes -/

/-- State of a `Polygon`: vertices, texture coordinates, one face normal. -/
structure Polygon (α : Type) where
  pos : Vec3 α
  vertices : List (Vec3 α)
  textureCoordinates : List (Vec2 α)
  normal : Vec3 α
deriving DecidableEq, Repr

namespace Polygon

variable {α : Type}

/-- Method `addVertice(vertice)`: `vertices.push_back`.  The parser calls it
`addVertex`, its name in the header `Object/PolygonMesh.hpp` that the parser
includes and that is not among the sources at hand. -/
def addVertex (p : Polygon α) (vertice : Vec3 α) : Polygon α :=
  { p with vertices := p.vertices ++ [vertice] }

/-- Method `addTexture(texture)`: `textureCoordinates.push_back`. -/
def addTexture (p : Polygon α) (texture : Vec2 α) : Polygon α :=
  { p with textureCoordinates := p.textureCoordinates ++ [texture] }

/-- Method `setNormal(n)`. -/
def setNormal (p : Polygon α) (n : Vec3 α) : Polygon α := { p with normal := n }

end Polygon

/-- State of a `PolygonMesh`: its polygons, in insertion order. -/
structure PolygonMesh (α : Type) where
  pos : Vec3 α
  polygons : List (Polygon α)
deriving DecidableEq, Repr

namespace PolygonMesh

variable {α : Type}

/-- Default-constructed mesh `PolygonMesh mesh;`: no polygon. -/
def empty [Zero α] : PolygonMesh α := { pos := Vec3.zero, polygons := [] }

/-- Method `addPolygon(poly)`: `polygons.push_back`. -/
def addPolygon (m : PolygonMesh α) (poly : Polygon α) : PolygonMesh α :=
  { m with polygons := m.polygons ++ [poly] }

end PolygonMesh

/-- Conversion of a `std::size_t` to `int` (two's complement, 32 bits), as
in `int verticeNb = poly.vertices.size()`. -/
def sizeToInt (n : Nat) : Int := ((n : Int) + 2 ^ 31) % 2 ^ 32 - 2 ^ 31

/-- Ways in which a run of the model stops without a result: a vector is
indexed outside its bounds (undefined behaviour in the source), or the
iteration bound given to a loop is used up. -/
inductive Fault where
  | outOfRange
  | outOfFuel
deriving DecidableEq, Repr

/-- State of a `TriangleMesh`: a `BasicObject` and its triangles. -/
structure TriangleMesh (α τ : Type) extends BasicObject α τ where
  triangles : List (Triangle α τ)

namespace TriangleMesh

variable {α τ : Type}

/-- Getter `getTriangles()`. -/
def getTriangles (m : TriangleMesh α τ) : List (Triangle α τ) := m.triangles

/-- The inner loop of the constructor,
`for (int id = 1; id < verticeNb - 1; ++id) polygonTriangles.push_back(
Triangle(poly.vertices[0], poly.vertices[id], poly.vertices[id + 1], poly.normal))`,
run from the loop state `(id, polygonTriangles)`.  The first argument bounds
the number of iterations still allowed. -/
def fanLoop [Field α] [DecidableEq α] (sqrt : α → α) (poly : Polygon α) (verticeNb : Int) :
    Nat → Int → List (Triangle α τ) → Except Fault (List (Triangle α τ))
  | 0, id, polygonTriangles =>
    if id < verticeNb - 1 then .error Fault.outOfFuel else .ok polygonTriangles
  | fuel + 1, id, polygonTriangles =>
    if id < verticeNb - 1 then
      if 0 ≤ id then
        match poly.vertices[0]?, poly.vertices[id.toNat]?, poly.vertices[(id + 1).toNat]? with
        | some v0, some v1, some v2 =>
          fanLoop sqrt poly verticeNb fuel (id + 1)
            (polygonTriangles ++ [Triangle.ofVertices sqrt v0 v1 v2 poly.normal])
        | _, _, _ => .error Fault.outOfRange
      else .error Fault.outOfRange
    else .ok polygonTriangles

/-- Body of the outer loop for one polygon: the triangles it contributes.
The inner loop is allowed `vertices.size()` iterations. -/
def polygonTriangles [Field α] [DecidableEq α] (sqrt : α → α) (poly : Polygon α) :
    Except Fault (List (Triangle α τ)) :=
  fanLoop sqrt poly (sizeToInt poly.vertices.length) poly.vertices.length 1 []

/-- The outer loop `for (Polygon poly : polyMesh)`, appending each polygon's
triangles at the end of `triangles`. -/
def meshLoop [Field α] [DecidableEq α] (sqrt : α → α) :
    List (Polygon α) → List (Triangle α τ) → Except Fault (List (Triangle α τ))
  | [], triangles => .ok triangles
  | poly :: rest, triangles =>
    match polygonTriangles sqrt poly with
    | .ok ts => meshLoop sqrt rest (triangles ++ ts)
    | .error e => .error e

/-- Constructor `TriangleMesh(PolygonMesh &polyMesh)`: the base is the default
`BasicObject()`, then `reflexionIndex = 0; refractiveIndex = 0;
transparency = 0; albedo = 0.18;` and the loop over the polygons. -/
def ofPolygonMesh [Field α] [DecidableEq α] (sqrt : α → α) (polyMesh : PolygonMesh α) :
    Except Fault (TriangleMesh α τ) :=
  match meshLoop sqrt polyMesh.polygons [] with
  | .ok ts =>
    .ok
      { toBasicObject :=
          { (BasicObject.newDefault : BasicObject α τ) with
            reflexionIndex := 0
            refractiveIndex := 0
            transparency := 0
            albedo := 18 / 100 }
        triangles := ts }
  | .error e => .error e

/-- The loop `for (Triangle triangle : triangles) { triangle.offset(position); }`
of `TriangleMesh::offset`.  The loop variable `triangle` is a copy of the
element, and it is this copy that `Triangle::offset` moves.  The state is the
mesh together with the loop variable as the last iteration left it. -/
def offsetLoop [Add α] (position : Vec3 α) :
    List (Triangle α τ) → TriangleMesh α τ × Option (Triangle α τ) →
      TriangleMesh α τ × Option (Triangle α τ)
  | [], state => state
  | element :: rest, state =>
    offsetLoop position rest (state.1, some (Triangle.offset element position))

/-- Method `TriangleMesh::offset(position)`, declared `const`: the mesh after
the call. -/
def offset [Add α] (m : TriangleMesh α τ) (position : Vec3 α) : TriangleMesh α τ :=
  (offsetLoop position m.triangles (m, none)).1

end TriangleMesh

/-! ## Camera -/

/-- State of a `Camera`. -/
structure Camera (α : Type) where
  pos : Vec3 α
  dir : Vec3 α
  vv : Vec3 α
  hv : Vec3 α
  sizeX : α
  sizeY : α
  resX : Nat
  resY : Nat
  focalLength : α
deriving DecidableEq

namespace Camera

variable {α : Type}

/-- The line printed by the constructor for a forbidden direction. -/
def errorMessage : String := "Erreur, rotation suivant l\x27axe vertical interdite\n"

/-- What the constructor prints: the message when `dir[2]` is non-zero
(`if (dir[2]) std::cout << ... << std::endl;`), nothing otherwise.  Here `dir`
is the constructor argument, which hides the member of the same name. -/
def printed [Zero α] [DecidableEq α] (dir : Vec3 α) : List String :=
  if dir.z ≠ 0 then [errorMessage] else []

/-- The value given to `hv` by the constructor body, from the argument `dir`.
`hvInit` is the content of the member before the body runs (it is
default-initialised), kept where no branch assigns it. -/
def horizontal [LinearOrderedField α] (sqrt : α → α) (hvInit dir : Vec3 α) : Vec3 α :=
  if dir.x = 0 then
    let hv1 := if dir.y > 0 then (⟨-1, 0, 0⟩ : Vec3 α) else hvInit
    if dir.y < 0 then ⟨1, 0, 0⟩ else hv1
  else if dir.y = 0 then
    let hv1 := if dir.x > 0 then (⟨0, 1, 0⟩ : Vec3 α) else hvInit
    if dir.x < 0 then ⟨0, -1, 0⟩ else hv1
  else
    let y := sqrt (1 / (1 + dir.z * dir.z / (dir.y * dir.y)))
    ⟨-dir.z / dir.y * y, y, 0⟩

/-- Constructor `Camera(pos, dir, sx, sy, rx, ry, fL)`: the camera built and
the lines printed.  The member `dir` is `normalize(dir)`; `vv` is
`(0, 0, -1)`. -/
def new [LinearOrderedField α] (sqrt : α → α) (hvInit : Vec3 α) (pos dir : Vec3 α)
    (sx sy : α) (rx ry : Nat) (fL : α) : Camera α × List String :=
  ({ pos := pos
     dir := Vec3.normalize sqrt dir
     vv := ⟨0, 0, -1⟩
     hv := horizontal sqrt hvInit dir
     sizeX := sx
     sizeY := sy
     resX := rx
     resY := ry
     focalLength := fL },
   printed dir)

end Camera

/-! ## Input streams (`std::ifstream`) -/

/-- State of an input stream: the characters not yet consumed and the two
state bits the parser can observe. -/
structure IStream where
  buf : List Char
  failbit : Bool
  eofbit : Bool
deriving DecidableEq, Repr

/-- White space of the classic locale. -/
def isSpace (c : Char) : Bool :=
  c = ' ' || c = '\t' || c = '\n' || c = '\x0b' || c = '\x0c' || c = '\r'

/-- Decimal digits. -/
def isDigit (c : Char) : Bool := 48 ≤ c.toNat && c.toNat ≤ 57

/-- Value of a run of decimal digits. -/
def digitsValue (ds : List Char) : Nat := ds.foldl (fun acc c => 10 * acc + (c.toNat - 48)) 0

namespace IStream

/-- A stream just opened on the given content. -/
def ofContent (content : List Char) : IStream :=
  { buf := content, failbit := false, eofbit := false }

/-- Test `good()`. -/
def good (s : IStream) : Bool := !s.failbit && !s.eofbit

/-- Test `eof()`. -/
def eof (s : IStream) : Bool := s.eofbit

/-- The sentry of a formatted input function: on a stream that is not good it
sets `failbit`; otherwise it skips white space, and sets `failbit` and
`eofbit` when the end is reached.  The boolean tells whether input may
proceed. -/
def sentry (s : IStream) : IStream × Bool :=
  if s.good then
    match s.buf.dropWhile isSpace with
    | [] => ({ buf := [], failbit := true, eofbit := true }, false)
    | c :: rest => ({ s with buf := c :: rest }, true)
  else ({ s with failbit := true }, false)

/-- Unformatted `peek()`: the next character, not consumed; `none` is the end
of file value, returned as well on a stream that is not good. -/
def peek (s : IStream) : IStream × Option Char :=
  if s.good then
    match s.buf with
    | [] => ({ s with eofbit := true }, none)
    | c :: _ => (s, some c)
  else ({ s with failbit := true }, none)

/-- Extraction `stream >> str` into a `std::string`: the characters up to the
next white space.  The string is left as it was when the sentry fails. -/
def readString (s : IStream) (str : String) : IStream × String :=
  match s.sentry with
  | (s1, true) =>
    let rest := s1.buf.dropWhile (fun c => !isSpace c)
    ({ s1 with buf := rest, eofbit := rest.isEmpty },
      String.mk (s1.buf.takeWhile (fun c => !isSpace c)))
  | (s1, false) => (s1, str)

/-- Extraction `stream >> c` into a `char`: the next character that is not
white space.  The variable is left as it was when the sentry fails. -/
def readChar (s : IStream) (c : Char) : IStream × Char :=
  match s.sentry with
  | (s1, true) =>
    match s1.buf with
    | d :: rest => ({ s1 with buf := rest }, d)
    | [] => ({ s1 with failbit := true, eofbit := true }, c)
  | (s1, false) => (s1, c)

/-- Extraction `stream >> n` into an `int`: an optional sign and decimal
digits.  Without digits the extraction fails and stores `0`; a value outside
the range of `int` fails and stores the nearest bound.  The variable is left
as it was when the sentry fails. -/
def readInt (s : IStream) (n : Int) : IStream × Int :=
  match s.sentry with
  | (s1, true) =>
    let negative := s1.buf.head? = some '-'
    let body := if s1.buf.head? = some '-' ∨ s1.buf.head? = some '+' then s1.buf.tail else s1.buf
    let digits := body.takeWhile isDigit
    let rest := body.dropWhile isDigit
    let value : Int := if negative then -(digitsValue digits : Int) else (digitsValue digits : Int)
    if digits.isEmpty then ({ buf := rest, failbit := true, eofbit := rest.isEmpty }, 0)
    else if value > 2147483647 then
      ({ buf := rest, failbit := true, eofbit := rest.isEmpty }, 2147483647)
    else if value < -2147483648 then
      ({ buf := rest, failbit := true, eofbit := rest.isEmpty }, -2147483648)
    else ({ buf := rest, failbit := false, eofbit := rest.isEmpty }, value)
  | (s1, false) => (s1, n)

/-- Extraction `stream >> x` into a `float`.  The conversion of the text is
the library's and is the argument `parseFloat`: from the characters at hand it
gives the value read, if any, and the characters left.  A failed conversion
stores `0`.  The variable is left as it was when the sentry fails. -/
def readFloat {α : Type} [Zero α] (parseFloat : List Char → Option α × List Char)
    (s : IStream) (x : α) : IStream × α :=
  match s.sentry with
  | (s1, true) =>
    match parseFloat s1.buf with
    | (some value, rest) => ({ buf := rest, failbit := false, eofbit := rest.isEmpty }, value)
    | (none, rest) => ({ buf := rest, failbit := true, eofbit := rest.isEmpty }, 0)
  | (s1, false) => (s1, x)

end IStream

/-- Conversion of plain decimal numerals (optional sign, digits, optional
fraction), the part of the library's `float` conversion that the examples
below need. -/
def parseDecimal (cs : List Char) : Option ℚ × List Char :=
  let negative := cs.head? = some '-'
  let body := if cs.head? = some '-' ∨ cs.head? = some '+' then cs.tail else cs
  let whole := body.takeWhile isDigit
  let afterWhole := body.dropWhile isDigit
  let frac := if afterWhole.head? = some '.' then afterWhole.tail.takeWhile isDigit else []
  let rest := if afterWhole.head? = some '.' then afterWhole.tail.dropWhile isDigit else afterWhole
  if whole.isEmpty ∧ frac.isEmpty then (none, rest)
  else
    let magnitude : ℚ := (digitsValue whole : ℚ) + (digitsValue frac : ℚ) / (10 ^ frac.length : ℚ)
    (some (if negative then -magnitude else magnitude), rest)

/-! ## The OBJ reader (`ObjParser.hpp`) -/

/-- How a call of `readObj` ends: it returns a mesh (with what it printed), it
throws `std::runtime_error` with the given message, or it indexes a vector
outside its bounds. -/
inductive Outcome (α : Type) where
  | returned (mesh : PolygonMesh α) (printed : List String)
  | thrown (what : String)
  | outOfRange
deriving DecidableEq, Repr

/-- The local variables of `readObj` and the stream. -/
structure ParserState (α : Type) where
  objFile : IStream
  v1 : α
  v2 : α
  v3 : α
  type : String
  texture3D : Bool
  v : List (Vec3 α)
  vt : List (Vec2 α)
  vn : List (Vec3 α)
  c1 : Int
  c2 : Char
  c3 : Int
  c4 : Char
  c5 : Int
  c1Vect : List Int
  c3Vect : List Int
  c5Vect : List Int
  mesh : PolygonMesh α

/-- The content of `c1, c2, c3, c4, c5` before anything is read into them:
they are declared without an initialiser. -/
structure Uninitialised where
  c1 : Int
  c2 : Char
  c3 : Int
  c4 : Char
  c5 : Int

namespace ObjParser

variable {α : Type} [Zero α]

/-- The message of the exception thrown on a malformed face record. -/
def formatError : String := "Error in the obj file format"

/-- The line printed when the file cannot be opened. -/
def filenameError : String := "Error in filename"

/-- Access `xs[i]` of a vector with an `int` index. -/
def at? {β : Type} (xs : List β) (i : Int) : Option β :=
  if 0 ≤ i then xs[i.toNat]? else none

/-- Body of the loop over the `v` records:
`objFile >> v1; objFile >> v2; objFile >> v3; objFile >> type;
v.push_back(glm::vec3(v1, v2, v3));`. -/
def readVertex (parseFloat : List Char → Option α × List Char) (st : ParserState α) :
    ParserState α :=
  let r1 := st.objFile.readFloat parseFloat st.v1
  let r2 := r1.1.readFloat parseFloat st.v2
  let r3 := r2.1.readFloat parseFloat st.v3
  let r4 := r3.1.readString st.type
  { st with
    objFile := r4.1, v1 := r1.2, v2 := r2.2, v3 := r3.2, type := r4.2
    v := st.v ++ [⟨r1.2, r2.2, r3.2⟩] }

/-- The loop `while (type == "v")`. -/
def readVertices (parseFloat : List Char → Option α × List Char) :
    Nat → ParserState α → Option (ParserState α)
  | 0, st => if st.type = "v" then none else some st
  | fuel + 1, st =>
    if st.type = "v" then readVertices parseFloat fuel (readVertex parseFloat st) else some st

/-- Body of the loop over the `vt` records.  The third coordinate is read when
`texture3D || objFile.peek() != '\n'`, which then sets `texture3D`, and is `0`
otherwise; the value pushed into the vector of `glm::vec2` keeps the first two
coordinates. -/
def readTexture (parseFloat : List Char → Option α × List Char) (st : ParserState α) :
    ParserState α :=
  let r1 := st.objFile.readFloat parseFloat st.v1
  let r2 := r1.1.readFloat parseFloat st.v2
  let test : IStream × Bool :=
    if st.texture3D then (r2.1, true)
    else ((r2.1.peek).1, decide ((r2.1.peek).2 ≠ some '\n'))
  let r3 : IStream × α := if test.2 then test.1.readFloat parseFloat st.v3 else (test.1, 0)
  let r4 := r3.1.readString st.type
  { st with
    objFile := r4.1, v1 := r1.2, v2 := r2.2, v3 := r3.2, type := r4.2
    texture3D := if test.2 then true else st.texture3D
    vt := st.vt ++ [⟨r1.2, r2.2⟩] }

/-- The loop `while (type == "vt")`. -/
def readTextures (parseFloat : List Char → Option α × List Char) :
    Nat → ParserState α → Option (ParserState α)
  | 0, st => if st.type = "vt" then none else some st
  | fuel + 1, st =>
    if st.type = "vt" then readTextures parseFloat fuel (readTexture parseFloat st) else some st

/-- Body of the loop over the `vn` records:
`objFile >> v1; objFile >> v2; objFile >> v3;
vn.push_back(glm::vec3(v1, v2, v3)); objFile >> type;`. -/
def readNormal (parseFloat : List Char → Option α × List Char) (st : ParserState α) :
    ParserState α :=
  let r1 := st.objFile.readFloat parseFloat st.v1
  let r2 := r1.1.readFloat parseFloat st.v2
  let r3 := r2.1.readFloat parseFloat st.v3
  let r4 := r3.1.readString st.type
  { st with
    objFile := r4.1, v1 := r1.2, v2 := r2.2, v3 := r3.2, type := r4.2
    vn := st.vn ++ [⟨r1.2, r2.2, r3.2⟩] }

/-- The loop `while (type == "vn")`. -/
def readNormals (parseFloat : List Char → Option α × List Char) :
    Nat → ParserState α → Option (ParserState α)
  | 0, st => if st.type = "vn" then none else some st
  | fuel + 1, st =>
    if st.type = "vn" then readNormals parseFloat fuel (readNormal parseFloat st) else some st

/-- The condition `objFile.peek() != '\n' && !objFile.eof()` of the loop over
the triplets of a face record: the stream after `peek()` and the truth value. -/
def moreTriplets (s : IStream) : IStream × Bool :=
  ((s.peek).1, decide ((s.peek).2 ≠ some '\n') && !(s.peek).1.eof)

/-- Body of the loop over the triplets:
`objFile >> c1; objFile >> c2; objFile >> c3; objFile >> c4; objFile >> c5;`,
the test `if (c2 != '/' || c4 != '/') throw std::runtime_error(...)` and the
three `push_back`.  `Except.error` is the exception thrown. -/
def readTriplet (st : ParserState α) : Except String (ParserState α) :=
  let r1 := st.objFile.readInt st.c1
  let r2 := r1.1.readChar st.c2
  let r3 := r2.1.readInt st.c3
  let r4 := r3.1.readChar st.c4
  let r5 := r4.1.readInt st.c5
  if r2.2 ≠ '/' ∨ r4.2 ≠ '/' then .error formatError
  else
    .ok
      { st with
        objFile := r5.1, c1 := r1.2, c2 := r2.2, c3 := r3.2, c4 := r4.2, c5 := r5.2
        c1Vect := st.c1Vect ++ [r1.2]
        c3Vect := st.c3Vect ++ [r3.2]
        c5Vect := st.c5Vect ++ [r5.2] }

/-- The loop `while (objFile.peek() != '\n' && !objFile.eof())` that reads the
index triplets of one face record. -/
def readTriplets : Nat → ParserState α → Option (Except String (ParserState α))
  | 0, st =>
    if (moreTriplets st.objFile).2 then none
    else some (.ok { st with objFile := (moreTriplets st.objFile).1 })
  | fuel + 1, st =>
    if (moreTriplets st.objFile).2 then
      match readTriplet { st with objFile := (moreTriplets st.objFile).1 } with
      | .error what => some (.error what)
      | .ok st1 => readTriplets fuel st1
    else some (.ok { st with objFile := (moreTriplets st.objFile).1 })

/-- The loop `for (unsigned k = 0; k < c1Vect.size(); ++k)` over the indices
`ks` still to visit: `poly.addVertex(v[c1Vect[k] - 1]);
poly.addTexture(vt[c3Vect[k] - 1]);`. -/
def addCorners (v : List (Vec3 α)) (vt : List (Vec2 α)) (c1Vect c3Vect : List Int) :
    List Nat → Polygon α → Option (Polygon α)
  | [], poly => some poly
  | k :: ks, poly =>
    match c1Vect[k]?, c3Vect[k]? with
    | some a, some b =>
      match at? v (a - 1), at? vt (b - 1) with
      | some vertex, some texture =>
        addCorners v vt c1Vect c3Vect ks ((poly.addVertex vertex).addTexture texture)
      | _, _ => none
    | _, _ => none

/-- The polygon built from the indices of one face record (lines 111 to 116):
a default `Polygon`, the corners, then `poly.setNormal(vn[c5Vect[0]])`.
`none` is an access outside a vector. -/
def buildPolygon (v : List (Vec3 α)) (vt : List (Vec2 α)) (vn : List (Vec3 α))
    (c1Vect c3Vect c5Vect : List Int) : Option (Polygon α) :=
  match addCorners v vt c1Vect c3Vect (List.range c1Vect.length)
      { pos := Vec3.zero, vertices := [], textureCoordinates := [], normal := Vec3.zero } with
  | some poly =>
    match c5Vect[0]? with
    | some c =>
      match at? vn c with
      | some n => some (poly.setNormal n)
      | none => none
    | none => none
  | none => none

/-- The loop `while (type == "f")`, down to the `return mesh;` that follows
it.  `bound` is the number of iterations allowed to the loop over the triplets
of one record. -/
def readFaces (bound : Nat) : Nat → ParserState α → Option (Outcome α)
  | 0, st => if st.type = "f" then none else some (.returned st.mesh [])
  | fuel + 1, st =>
    if st.type = "f" then
      match readTriplets bound { st with c1Vect := [], c3Vect := [], c5Vect := [] } with
      | none => none
      | some (.error what) => some (.thrown what)
      | some (.ok st1) =>
        match buildPolygon st1.v st1.vt st1.vn st1.c1Vect st1.c3Vect st1.c5Vect with
        | none => some .outOfRange
        | some poly =>
          if st1.objFile.eof then some (.returned (st1.mesh.addPolygon poly) [])
          else
            readFaces bound fuel
              { st1 with
                mesh := st1.mesh.addPolygon poly
                objFile := (st1.objFile.readString st1.type).1
                type := (st1.objFile.readString st1.type).2 }
    else some (.returned st.mesh [])

/-- The state at the first `objFile >> type`, for a file that opened. -/
def initialState (init : Uninitialised) (content : List Char) : ParserState α :=
  { objFile := IStream.ofContent content
    v1 := 0, v2 := 0, v3 := 0
    type := ""
    texture3D := false
    v := [], vt := [], vn := []
    c1 := init.c1, c2 := init.c2, c3 := init.c3, c4 := init.c4, c5 := init.c5
    c1Vect := [], c3Vect := [], c5Vect := []
    mesh := PolygonMesh.empty }

/-- The state after the first `objFile >> type;`. -/
def firstRecord (init : Uninitialised) (content : List Char) : ParserState α :=
  { (initialState init content : ParserState α) with
    objFile := ((IStream.ofContent content).readString "").1
    type := ((IStream.ofContent content).readString "").2 }

/-- Method `ObjParser::readObj(filename)`.  The file system is the argument
`file`: the content of the file, or `none` when it cannot be opened.  `fuel`
bounds the iterations of each loop; the result is `none` when a loop needs
more. -/
def readObj (parseFloat : List Char → Option α × List Char) (init : Uninitialised)
    (fuel : Nat) (file : Option (List Char)) : Option (Outcome α) :=
  match file with
  | none => some (.returned PolygonMesh.empty [filenameError])
  | some content =>
    match readVertices parseFloat fuel (firstRecord init content) with
    | none => none
    | some st1 =>
      match readTextures parseFloat fuel st1 with
      | none => none
      | some st2 =>
        match readNormals parseFloat fuel st2 with
        | none => none
        | some st3 => readFaces fuel fuel st3

/-- Whether the loop over the triplets, started in `st`, passes `k` times
through its body without throwing and then stands with `failbit` set,
`eofbit` clear and both separators equal to `'/'`. -/
def stuckAfter : Nat → ParserState α → Bool
  | 0, st => st.objFile.failbit && !st.objFile.eofbit && st.c2 == '/' && st.c4 == '/'
  | k + 1, st =>
    (moreTriplets st.objFile).2 &&
      match readTriplet { st with objFile := (moreTriplets st.objFile).1 } with
      | .ok st1 => stuckAfter k st1
      | .error _ => false

end ObjParser

/-! ## Fan triangulation: the triangles named by the specification -/

section FanDefs

variable {α τ : Type} [Field α] [DecidableEq α]

/-- The triangle pushed by the loop body at index `k`; the default vector
stands for an access outside the vertex vector, which the uses below exclude. -/
def fanTriangle (sqrt : α → α) (poly : Polygon α) (k : Nat) : Triangle α τ :=
  Triangle.ofVertices sqrt (poly.vertices.getD 0 Vec3.zero) (poly.vertices.getD k Vec3.zero)
    (poly.vertices.getD (k + 1) Vec3.zero) poly.normal

/-- The fan of a polygon: the triangles of indices `1, ..., n - 2`. -/
def fan (sqrt : α → α) (poly : Polygon α) : List (Triangle α τ) :=
  (List.range' 1 (poly.vertices.length - 2)).map (fanTriangle sqrt poly)

end FanDefs

/-- The unit square of the plane `z = 0`, with face normal `(0, 0, 1)`. -/
def unitSquare : Polygon ℚ :=
  { pos := Vec3.zero
    vertices := [⟨0, 0, 0⟩, ⟨1, 0, 0⟩, ⟨1, 1, 0⟩, ⟨0, 1, 0⟩]
    textureCoordinates := [⟨0, 0⟩, ⟨1, 0⟩, ⟨1, 1⟩, ⟨0, 1⟩]
    normal := ⟨0, 0, 1⟩ }

/-- A mesh made of the unit square alone. -/
def squareMesh : PolygonMesh ℚ := { pos := Vec3.zero, polygons := [unitSquare] }

/-! ## Areas: the notions of the specification -/

section AreaDefs

variable {α : Type}

/-- Sum of a list of vectors. -/
def Vec3.sum [Zero α] [Add α] : List (Vec3 α) → Vec3 α
  | [] => Vec3.zero
  | v :: vs => v.add (Vec3.sum vs)

/-- Area of a triangle, in the words of the specification: half the norm of
`cross(pos1 - pos, pos2 - pos)`. -/
def Triangle.area {τ : Type} [Field α] (sqrt : α → α) (t : Triangle α τ) : α :=
  Vec3.length sqrt (Vec3.cross (t.pos1.sub t.pos) (t.pos2.sub t.pos)) / 2

/-- Area of the planar polygon with the given vertices: half the norm of the
sum of `cross(v_i, v_(i+1))` over its edges, the last edge closing the polygon
from the last vertex to the first. -/
def polygonArea [Field α] (sqrt : α → α) (vertices : List (Vec3 α)) : α :=
  Vec3.length sqrt
    (Vec3.sum ((List.range vertices.length).map (fun i =>
      Vec3.cross (vertices.getD i Vec3.zero)
        (vertices.getD ((i + 1) % vertices.length) Vec3.zero)))) / 2

/-- The vertices form a convex planar polygon, listed counter-clockwise around
the unit normal `normal`: all vertices lie in the plane through the first one
that is orthogonal to `normal`, and every vertex lies on the inner side of, or
on, the line of every edge. -/
def ConvexPlanar [LinearOrderedField α] (normal : Vec3 α) (vertices : List (Vec3 α)) : Prop :=
  Vec3.dot normal normal = 1 ∧
  (∀ i, i < vertices.length →
    Vec3.dot normal ((vertices.getD i Vec3.zero).sub (vertices.getD 0 Vec3.zero)) = 0) ∧
  (∀ i, i < vertices.length → ∀ j, j < vertices.length →
    0 ≤ Vec3.dot normal
      (Vec3.cross
        ((vertices.getD ((i + 1) % vertices.length) Vec3.zero).sub (vertices.getD i Vec3.zero))
        ((vertices.getD j Vec3.zero).sub (vertices.getD i Vec3.zero))))

end AreaDefs

/-! ## Inputs used in the evaluations -/

/-- A triangle of the plane `z = 0` whose face normal is `(1, 1, 1)`. -/
def slantedNormalPolygon : Polygon ℚ :=
  { pos := Vec3.zero
    vertices := [⟨0, 0, 0⟩, ⟨1, 0, 0⟩, ⟨0, 1, 0⟩]
    textureCoordinates := [⟨0, 0⟩, ⟨1, 0⟩, ⟨0, 1⟩]
    normal := ⟨1, 1, 1⟩ }

/-- A mesh made of `slantedNormalPolygon` alone. -/
def slantedNormalMesh : PolygonMesh ℚ := { pos := Vec3.zero, polygons := [slantedNormalPolygon] }

/-- The normals stored by the triangles emitted for a polygon: the normalised
face normal, or the normalised cross product of the triangle's own edges when
the face normal is `(1, 1, 1)`. -/
def fanNormals {α : Type} [Field α] [DecidableEq α] (sqrt : α → α) (poly : Polygon α) :
    List (Vec3 α) :=
  (List.range' 1 (poly.vertices.length - 2)).map (fun k =>
    if poly.normal = ⟨1, 1, 1⟩ then
      Vec3.normalize sqrt
        (Vec3.cross
          ((poly.vertices.getD k Vec3.zero).sub (poly.vertices.getD 0 Vec3.zero))
          ((poly.vertices.getD (k + 1) Vec3.zero).sub (poly.vertices.getD 0 Vec3.zero)))
    else Vec3.normalize sqrt poly.normal)

/-- Values for the locals `c1, ..., c5` before the first extraction, used in
the evaluations; the inputs evaluated read all five before any is used. -/
def blankLocals : Uninitialised := { c1 := 0, c2 := ' ', c3 := 0, c4 := ' ', c5 := 0 }

/-- The vertex, texture and normal records shared by the files evaluated
below: three `v`, three `vt` and two `vn` entries. -/
def objHeader : String :=
  "v 0 0 0\nv 1 0 0\nv 0 1 0\nvt 0 0\nvt 1 0\nvt 0 1\nvn 0 0 1\nvn 1 0 0\n"

/-- A file whose face record ends with the incomplete triplet `3/3`. -/
def objShortTriplet : List Char := (objHeader ++ "f 1/1/1 2/2/1 3/3\n").toList

/-- A file with one well-formed face record, all of whose normal indices are
`1`, ending at the last index. -/
def objFirstNormal : List Char := (objHeader ++ "f 1/1/1 2/2/1 3/3/1").toList

/-- A file whose face record is the four-index group `1/2/3/4`. -/
def objFourIndices : List Char := "f 1/2/3/4\n".toList

/-- A file whose face record separates its indices by spaces. -/
def objSpaces : List Char := (objHeader ++ "f 1 2 3\n").toList

/-- A file with a single `vn` record and a well-formed face record whose
normal indices are `1`. -/
def objSingleNormal : List Char :=
  "v 0 0 0\nv 1 0 0\nv 0 1 0\nvt 0 0\nvt 1 0\nvt 0 1\nvn 0 0 1\nf 1/1/1 2/2/1 3/3/1".toList

/-- The triangle `(0,0,0), (1,0,0), (0,1,0)` with the given face normal, as
read from the files above. -/
def parsedTriangle (normal : Vec3 ℚ) : Polygon ℚ :=
  { pos := Vec3.zero
    vertices := [⟨0, 0, 0⟩, ⟨1, 0, 0⟩, ⟨0, 1, 0⟩]
    textureCoordinates := [⟨0, 0⟩, ⟨1, 0⟩, ⟨0, 1⟩]
    normal := normal }

/-- A mesh holding the one triangle `(0,0,0), (1,0,0), (0,1,0)`. -/
def oneTriangleMesh : TriangleMesh ℚ Unit :=
  { toBasicObject := BasicObject.newDefault
    triangles := [Triangle.ofVertices Rat.sqrt ⟨0, 0, 0⟩ ⟨1, 0, 0⟩ ⟨0, 1, 0⟩ ⟨0, 0, 1⟩] }

/-- A polygon with the given vertices, no texture coordinates and face normal
`(0, 0, 1)`. -/
def flatPolygon (vertices : List (Vec3 ℚ)) : Polygon ℚ :=
  { pos := Vec3.zero, vertices := vertices, textureCoordinates := [], normal := ⟨0, 0, 1⟩ }

/-- A mesh whose polygons have 0, 1, 2 and 4 vertices. -/
def mixedMesh : PolygonMesh ℚ :=
  { pos := Vec3.zero
    polygons :=
      [flatPolygon [], flatPolygon [⟨0, 0, 0⟩], flatPolygon [⟨0, 0, 0⟩, ⟨1, 0, 0⟩], unitSquare] }

/-- A file with two `vn` records and one well-formed face record, ending with
a line feed. -/
def objTrailingNewline : List Char := (objHeader ++ "f 1/1/1 2/2/1 3/3/1\n").toList

/-! # Theorems -/

/-! ## Fan triangulation -/

section Fan

variable {α τ : Type} [Field α] [DecidableEq α]

/-- Below `2 ^ 31` the conversion of a size to `int` is exact. -/
theorem sizeToInt_of_lt (n : Nat) (h : n < 2 ^ 31) : sizeToInt n = (n : Int) := by
  unfold sizeToInt
  omega

theorem fanLoop_eq (sqrt : α → α) (poly : Polygon α) :
    ∀ (fuel j : Nat) (acc : List (Triangle α τ)),
      poly.vertices.length ≤ j + 1 + fuel →
      TriangleMesh.fanLoop sqrt poly (poly.vertices.length : Int) fuel (j : Int) acc =
        .ok (acc ++ (List.range' j (poly.vertices.length - 1 - j)).map
          (fanTriangle sqrt poly)) := by
  intro fuel
  induction fuel with
  | zero =>
    intro j acc h
    have h0 : poly.vertices.length - 1 - j = 0 := by omega
    have hg : ¬ ((j : Int) < (poly.vertices.length : Int) - 1) := by omega
    simp [TriangleMesh.fanLoop, h0, hg]
  | succ fuel ih =>
    intro j acc h
    by_cases hg : (j : Int) < (poly.vertices.length : Int) - 1
    · have hj : j + 1 < poly.vertices.length := by omega
      have h0 : 0 < poly.vertices.length := by omega
      have hj0 : j < poly.vertices.length := by omega
      have hm : poly.vertices.length - 1 - j = (poly.vertices.length - 1 - (j + 1)) + 1 := by
        omega
      have hpos : (0 : Int) ≤ (j : Int) := by omega
      have ht1 : ((j : Int) + 1).toNat = j + 1 := by omega
      have hstep := ih (j + 1) (acc ++ [fanTriangle sqrt poly j]) (by omega)
      rw [TriangleMesh.fanLoop, if_pos hg, if_pos hpos, Int.toNat_ofNat, ht1,
        List.getElem?_eq_getElem h0, List.getElem?_eq_getElem hj0,
        List.getElem?_eq_getElem hj]
      simp only []
      rw [hm, List.range'_succ, List.map_cons]
      have hcast : ((j : Int) + 1) = ((j + 1 : Nat) : Int) := by push_cast; rfl
      rw [hcast]
      have htri : Triangle.ofVertices sqrt poly.vertices[0] poly.vertices[j]
          poly.vertices[j + 1] poly.normal = (fanTriangle sqrt poly j : Triangle α τ) := by
        simp [fanTriangle, List.getD_eq_getElem?_getD, List.getElem?_eq_getElem, h0, hj0, hj]
      rw [htri]
      simpa using hstep
    · have h0 : poly.vertices.length - 1 - j = 0 := by omega
      simp [TriangleMesh.fanLoop, h0, hg]

theorem polygonTriangles_eq (sqrt : α → α) (poly : Polygon α)
    (h : poly.vertices.length < 2 ^ 31) :
    (TriangleMesh.polygonTriangles sqrt poly : Except Fault (List (Triangle α τ))) =
      .ok (fan sqrt poly) := by
  unfold TriangleMesh.polygonTriangles
  rw [sizeToInt_of_lt _ h]
  have key := fanLoop_eq (τ := τ) sqrt poly poly.vertices.length 1 [] (by omega)
  have h2 : poly.vertices.length - 1 - 1 = poly.vertices.length - 2 := by omega
  rw [h2] at key
  simpa [fan] using key

theorem meshLoop_eq (sqrt : α → α) :
    ∀ (polys : List (Polygon α)) (acc : List (Triangle α τ)),
      (∀ poly ∈ polys, poly.vertices.length < 2 ^ 31) →
      TriangleMesh.meshLoop sqrt polys acc = .ok (acc ++ polys.flatMap (fan sqrt)) := by
  intro polys
  induction polys with
  | nil => intro acc _; simp [TriangleMesh.meshLoop]
  | cons poly rest ih =>
    intro acc h
    have hp := polygonTriangles_eq (τ := τ) sqrt poly (h poly (List.mem_cons_self _ _))
    have hr := ih (acc ++ fan sqrt poly) (fun q hq => h q (List.mem_cons_of_mem _ hq))
    simp only [TriangleMesh.meshLoop, hp, hr, List.flatMap_cons, List.append_assoc]

theorem ofPolygonMesh_eq (sqrt : α → α) (polyMesh : PolygonMesh α)
    (h : ∀ poly ∈ polyMesh.polygons, poly.vertices.length < 2 ^ 31) :
    ∃ mesh : TriangleMesh α τ, TriangleMesh.ofPolygonMesh sqrt polyMesh = .ok mesh ∧
      mesh.getTriangles = polyMesh.polygons.flatMap (fan sqrt) := by
  have hm := meshLoop_eq (τ := τ) sqrt polyMesh.polygons [] h
  simp only [TriangleMesh.ofPolygonMesh, hm, List.nil_append]
  exact ⟨_, rfl, rfl⟩

theorem fan_corners (sqrt : α → α) (poly : Polygon α) :
    (fan sqrt poly : List (Triangle α τ)).map
        (fun t => (some t.pos, some t.pos1, some t.pos2)) =
      (List.range' 1 (poly.vertices.length - 2)).map
        (fun k => (poly.vertices[0]?, poly.vertices[k]?, poly.vertices[k + 1]?)) := by
  unfold fan
  rw [List.map_map]
  apply List.map_congr_left
  intro k hk
  rw [List.mem_range'_1] at hk
  have h0 : 0 < poly.vertices.length := by omega
  have hk0 : k < poly.vertices.length := by omega
  have hk1 : k + 1 < poly.vertices.length := by omega
  simp [fanTriangle, Triangle.ofVertices, Triangle.new, BasicObject.new,
    List.getD_eq_getElem?_getD, List.getElem?_eq_getElem, h0, hk0, hk1]

/-- C1: the triangle list built by `TriangleMesh(polyMesh)` is the
concatenation, in polygon order, of the fans of the polygons: a polygon with
`n` vertices contributes, for `k = 1, ..., n - 2` in this order, one triangle
whose corners `(pos, pos1, pos2)` are `(vertices[0], vertices[k], vertices[k+1])`,
each of the three accesses being inside the vertex vector.  Vertex counts are
taken below `2 ^ 31`, the range of the `int` that holds them. -/
theorem TriangleMesh_fan_triangulation (sqrt : α → α) (polyMesh : PolygonMesh α)
    (hsize : ∀ poly ∈ polyMesh.polygons, poly.vertices.length < 2 ^ 31) :
    ∃ mesh : TriangleMesh α τ, TriangleMesh.ofPolygonMesh sqrt polyMesh = .ok mesh ∧
      mesh.getTriangles.map (fun t => (some t.pos, some t.pos1, some t.pos2)) =
        polyMesh.polygons.flatMap (fun poly =>
          (List.range' 1 (poly.vertices.length - 2)).map
            (fun k => (poly.vertices[0]?, poly.vertices[k]?, poly.vertices[k + 1]?))) ∧
      mesh.getTriangles.length =
        (polyMesh.polygons.map (fun poly => poly.vertices.length - 2)).sum := by
  obtain ⟨mesh, hok, htri⟩ := ofPolygonMesh_eq (τ := τ) sqrt polyMesh hsize
  refine ⟨mesh, hok, ?_, ?_⟩
  · rw [htri]
    clear htri hok hsize
    induction polyMesh.polygons with
    | nil => simp
    | cons poly rest ih =>
      simp only [List.flatMap_cons, List.map_append, ih, fan_corners]
  · rw [htri]
    clear htri hok hsize
    induction polyMesh.polygons with
    | nil => simp
    | cons poly rest ih =>
      simp only [List.flatMap_cons, List.length_append, ih, List.map_cons, List.sum_cons]
      simp [fan]

/-- The unit square is cut into the triangles `(v0, v1, v2)` and `(v0, v2, v3)`. -/
theorem TriangleMesh_fan_triangulation_witness :
    (∀ poly ∈ squareMesh.polygons, poly.vertices.length < 2 ^ 31) ∧
    ∃ mesh : TriangleMesh ℚ Unit,
      TriangleMesh.ofPolygonMesh Rat.sqrt squareMesh = .ok mesh ∧
      mesh.getTriangles.map (fun t => (some t.pos, some t.pos1, some t.pos2)) =
        [(some ⟨0, 0, 0⟩, some ⟨1, 0, 0⟩, some ⟨1, 1, 0⟩),
         (some ⟨0, 0, 0⟩, some ⟨1, 1, 0⟩, some ⟨0, 1, 0⟩)] ∧
      mesh.getTriangles.length = 2 := by
  have hsize : ∀ poly ∈ squareMesh.polygons, poly.vertices.length < 2 ^ 31 := by
    simp [squareMesh, unitSquare]
  obtain ⟨mesh, hok, hc, hl⟩ :=
    TriangleMesh_fan_triangulation (τ := Unit) Rat.sqrt squareMesh hsize
  refine ⟨hsize, mesh, hok, ?_, ?_⟩
  · rw [hc]
    simp [squareMesh, unitSquare, List.range']
  · rw [hl]
    simp [squareMesh, unitSquare]

end Fan

/-! ## Areas of the emitted triangles -/

section Areas

variable {α : Type}

theorem Vec3_sum_append_singleton [Field α] (l : List (Vec3 α)) (v : Vec3 α) :
    Vec3.sum (l ++ [v]) = (Vec3.sum l).add v := by
  induction l with
  | nil => ext <;> simp [Vec3.sum, Vec3.add, Vec3.zero]
  | cons w ws ih =>
    rw [List.cons_append, Vec3.sum, ih, Vec3.sum]
    ext <;> simp [Vec3.add, add_assoc]

/-- The cross products of the fan add up to the cross products of the edges
of the closed polygon. -/
theorem fan_cross_sum [Field α] (g : Nat → Vec3 α) (m : Nat) :
    Vec3.sum ((List.range' 1 m).map
        (fun k => Vec3.cross ((g k).sub (g 0)) ((g (k + 1)).sub (g 0)))) =
      (Vec3.sum ((List.range (m + 1)).map (fun i => Vec3.cross (g i) (g (i + 1))))).add
        (Vec3.cross (g (m + 1)) (g 0)) := by
  induction m with
  | zero =>
    ext <;> simp [Vec3.sum, Vec3.add, Vec3.cross, Vec3.zero, List.range_succ]
  | succ m ih =>
    rw [List.range'_1_concat, List.map_append, List.map_singleton, Vec3_sum_append_singleton, ih,
      List.range_succ (n := m + 1), List.map_append, List.map_singleton,
      Vec3_sum_append_singleton]
    have h1 : 1 + m = m + 1 := by omega
    rw [h1]
    ext <;> simp [Vec3.add, Vec3.cross, Vec3.sub] <;> ring

/-- The sum over the edges of the closed polygon, written with the last edge
apart. -/
theorem edge_sum_split [Field α] (vs : List (Vec3 α)) (m : Nat) (hm : vs.length = m + 2) :
    Vec3.sum ((List.range vs.length).map (fun i =>
      Vec3.cross (vs.getD i Vec3.zero) (vs.getD ((i + 1) % vs.length) Vec3.zero))) =
    (Vec3.sum ((List.range (m + 1)).map (fun i =>
      Vec3.cross (vs.getD i Vec3.zero) (vs.getD (i + 1) Vec3.zero)))).add
      (Vec3.cross (vs.getD (m + 1) Vec3.zero) (vs.getD 0 Vec3.zero)) := by
  rw [hm, List.range_succ, List.map_append, List.map_singleton, Vec3_sum_append_singleton]
  have hlast : (m + 1 + 1) % (m + 2) = 0 := by
    have : m + 1 + 1 = m + 2 := by omega
    rw [this, Nat.mod_self]
  rw [hlast]
  congr 2
  apply List.map_congr_left
  intro i hi
  rw [List.mem_range] at hi
  rw [Nat.mod_eq_of_lt (by omega)]

/-- A cross product of two vectors orthogonal to the unit vector `n` is the
multiple of `n` by its component along `n`. -/
theorem cross_parallel_normal [Field α] (n a b : Vec3 α) (hn : Vec3.dot n n = 1)
    (ha : Vec3.dot n a = 0) (hb : Vec3.dot n b = 0) :
    Vec3.cross a b = n.scale (Vec3.dot n (Vec3.cross a b)) := by
  obtain ⟨nx, ny, nz⟩ := n
  obtain ⟨ax, ay, az⟩ := a
  obtain ⟨bx, b_y, bz⟩ := b
  simp only [Vec3.dot] at hn ha hb
  ext
  · simp only [Vec3.cross, Vec3.scale, Vec3.dot]
    linear_combination (-(ay * bz - b_y * az)) * hn + (ny * bz - nz * b_y) * ha
      - (ny * az - nz * ay) * hb
  · simp only [Vec3.cross, Vec3.scale, Vec3.dot]
    linear_combination (-(az * bx - bz * ax)) * hn + (nz * bx - nx * bz) * ha
      - (nz * ax - nx * az) * hb
  · simp only [Vec3.cross, Vec3.scale, Vec3.dot]
    linear_combination (-(ax * b_y - bx * ay)) * hn + (nx * b_y - ny * bx) * ha
      - (nx * ay - ny * ax) * hb

/-- Length of a non-negative multiple of a unit vector. -/
theorem length_scale_unit [LinearOrderedField α] (sqrt : α → α)
    (hsqrt : ∀ x : α, 0 ≤ x → sqrt (x * x) = x) (n : Vec3 α) (hn : Vec3.dot n n = 1)
    (c : α) (hc : 0 ≤ c) : Vec3.length sqrt (n.scale c) = c := by
  have h : Vec3.dot (n.scale c) (n.scale c) = c * c := by
    simp only [Vec3.dot, Vec3.scale] at hn ⊢
    linear_combination (c * c) * hn
  rw [Vec3.length, h, hsqrt c hc]

/-- For vectors that are non-negative multiples of one unit vector, the
lengths add up to the length of the sum. -/
theorem sum_lengths_parallel [LinearOrderedField α] (sqrt : α → α)
    (hsqrt : ∀ x : α, 0 ≤ x → sqrt (x * x) = x) (n : Vec3 α) (hn : Vec3.dot n n = 1)
    (cs : List (Vec3 α))
    (hcs : ∀ c ∈ cs, c = n.scale (Vec3.dot n c) ∧ 0 ≤ Vec3.dot n c) :
    (cs.map (fun c => Vec3.length sqrt c / 2)).sum = Vec3.length sqrt (Vec3.sum cs) / 2 := by
  have hsum : Vec3.sum cs = n.scale ((cs.map (Vec3.dot n)).sum) ∧
      0 ≤ (cs.map (Vec3.dot n)).sum ∧
      (cs.map (fun c => Vec3.length sqrt c / 2)).sum = (cs.map (Vec3.dot n)).sum / 2 := by
    induction cs with
    | nil =>
      refine ⟨?_, by simp, by simp⟩
      ext <;> simp [Vec3.sum, Vec3.scale, Vec3.zero]
    | cons c cs ih =>
      obtain ⟨hc, hpos⟩ := hcs c (List.mem_cons_self _ _)
      obtain ⟨ih1, ih2, ih3⟩ := ih (fun d hd => hcs d (List.mem_cons_of_mem _ hd))
      refine ⟨?_, ?_, ?_⟩
      · rw [Vec3.sum, ih1, List.map_cons, List.sum_cons]
        conv_lhs => rw [hc]
        ext <;> simp [Vec3.add, Vec3.scale] <;> ring
      · rw [List.map_cons, List.sum_cons]
        exact add_nonneg hpos ih2
      · rw [List.map_cons, List.sum_cons, ih3, List.map_cons, List.sum_cons]
        have hlen : Vec3.length sqrt c = Vec3.dot n c := by
          conv_lhs => rw [hc]
          exact length_scale_unit sqrt hsqrt n hn _ hpos
        rw [hlen]
        ring
  obtain ⟨h1, h2, h3⟩ := hsum
  rw [h3, h1, length_scale_unit sqrt hsqrt n hn _ h2]

/-- C2: for a convex planar polygon with `n ≥ 3` vertices, the constructor's
loop emits `n - 2` triangles whose areas, each half the norm of
`cross(pos1 - pos, pos2 - pos)`, add up to the area of the polygon.  The
statement is one of exact arithmetic: the scalars form an ordered field and
`sqrt` is a square root (`sqrt (x * x) = x` for `0 ≤ x`).  Vertex counts are
taken below `2 ^ 31`. -/
theorem fan_areas_sum_to_polygon_area {τ : Type} [LinearOrderedField α] (sqrt : α → α)
    (hsqrt : ∀ x : α, 0 ≤ x → sqrt (x * x) = x) (poly : Polygon α) (normal : Vec3 α)
    (hn : 3 ≤ poly.vertices.length) (hsize : poly.vertices.length < 2 ^ 31)
    (hconvex : ConvexPlanar normal poly.vertices) :
    ∃ ts : List (Triangle α τ), TriangleMesh.polygonTriangles sqrt poly = .ok ts ∧
      ts.length = poly.vertices.length - 2 ∧
      (ts.map (Triangle.area sqrt)).sum = polygonArea sqrt poly.vertices := by
  obtain ⟨hunit, hplanar, hinner⟩ := hconvex
  refine ⟨fan sqrt poly, polygonTriangles_eq sqrt poly hsize, by simp [fan], ?_⟩
  obtain ⟨m, hm⟩ : ∃ m, poly.vertices.length = m + 2 := ⟨poly.vertices.length - 2, by omega⟩
  have hareas : (fan sqrt poly : List (Triangle α τ)).map (Triangle.area sqrt) =
      ((List.range' 1 m).map (fun k =>
        Vec3.cross ((poly.vertices.getD k Vec3.zero).sub (poly.vertices.getD 0 Vec3.zero))
          ((poly.vertices.getD (k + 1) Vec3.zero).sub (poly.vertices.getD 0 Vec3.zero)))).map
        (fun c => Vec3.length sqrt c / 2) := by
    have hm2 : poly.vertices.length - 2 = m := by omega
    simp only [fan, hm2, List.map_map]
    apply List.map_congr_left
    intro k _
    simp [Triangle.area, fanTriangle, Triangle.ofVertices, Triangle.new, BasicObject.new]
  rw [hareas, sum_lengths_parallel sqrt hsqrt normal hunit, polygonArea,
    edge_sum_split poly.vertices m hm,
    fan_cross_sum (fun i => poly.vertices.getD i Vec3.zero) m]
  intro c hc
  rw [List.mem_map] at hc
  obtain ⟨k, hk, rfl⟩ := hc
  rw [List.mem_range'_1] at hk
  have hk0 := hplanar k (by omega)
  have hk1 := hplanar (k + 1) (by omega)
  refine ⟨cross_parallel_normal normal _ _ hunit hk0 hk1, ?_⟩
  have hin := hinner k (by omega) 0 (by omega)
  rw [Nat.mod_eq_of_lt (by omega)] at hin
  have heq : Vec3.dot normal
      (Vec3.cross
        ((poly.vertices.getD (k + 1) Vec3.zero).sub (poly.vertices.getD k Vec3.zero))
        ((poly.vertices.getD 0 Vec3.zero).sub (poly.vertices.getD k Vec3.zero))) =
      Vec3.dot normal
      (Vec3.cross ((poly.vertices.getD k Vec3.zero).sub (poly.vertices.getD 0 Vec3.zero))
        ((poly.vertices.getD (k + 1) Vec3.zero).sub (poly.vertices.getD 0 Vec3.zero))) := by
    simp only [Vec3.dot, Vec3.cross, Vec3.sub]
    ring
  rw [← heq]
  exact hin

theorem Rat_sqrt_mul_self (x : ℚ) (hx : 0 ≤ x) : Rat.sqrt (x * x) = x := by
  rw [Rat.sqrt_eq, abs_of_nonneg hx]

/-- The unit square, of area `1`, is convex and planar around `(0, 0, 1)`; its
two triangles have areas adding up to the area of the square. -/
theorem fan_areas_sum_to_polygon_area_witness :
    (∀ x : ℚ, 0 ≤ x → Rat.sqrt (x * x) = x) ∧ 3 ≤ unitSquare.vertices.length ∧
    unitSquare.vertices.length < 2 ^ 31 ∧ ConvexPlanar ⟨0, 0, 1⟩ unitSquare.vertices ∧
    polygonArea Rat.sqrt unitSquare.vertices = 1 ∧
    ∃ ts : List (Triangle ℚ Unit), TriangleMesh.polygonTriangles Rat.sqrt unitSquare = .ok ts ∧
      ts.length = unitSquare.vertices.length - 2 ∧
      (ts.map (Triangle.area Rat.sqrt)).sum = polygonArea Rat.sqrt unitSquare.vertices := by
  have hconvex : ConvexPlanar (⟨0, 0, 1⟩ : Vec3 ℚ) unitSquare.vertices := by
    refine ⟨by decide!, by decide!, by decide!⟩
  have h3 : 3 ≤ unitSquare.vertices.length := by decide
  have hsize : unitSquare.vertices.length < 2 ^ 31 := by decide
  exact ⟨Rat_sqrt_mul_self, h3, hsize, hconvex, by decide!,
    fan_areas_sum_to_polygon_area Rat.sqrt Rat_sqrt_mul_self unitSquare ⟨0, 0, 1⟩ h3 hsize
      hconvex⟩

end Areas

/-! ## Normals of the emitted triangles -/

section Normals

variable {α τ : Type} [Field α] [DecidableEq α]

theorem Triangle_new_normal (sqrt : α → α) (v0 v1 v2 n color : Vec3 α) (t r R a : α) :
    (Triangle.new sqrt v0 v1 v2 n color t r R a : Triangle α τ).normal =
      if n = ⟨1, 1, 1⟩ then Vec3.normalize sqrt (Vec3.cross (v1.sub v0) (v2.sub v0))
      else Vec3.normalize sqrt n := by
  obtain ⟨nx, ny, nz⟩ := n
  simp [Triangle.new]

theorem fan_normals (sqrt : α → α) (poly : Polygon α) :
    (fan sqrt poly : List (Triangle α τ)).map (fun t => t.normal) = fanNormals sqrt poly := by
  unfold fan fanNormals
  rw [List.map_map]
  apply List.map_congr_left
  intro k _
  simp only [Function.comp, fanTriangle, Triangle.ofVertices, Triangle_new_normal]

/-- C3 (as amended): every triangle emitted by `TriangleMesh(polyMesh)` for a
polygon whose face normal is not `(1, 1, 1)` stores the normalised face
normal; for a polygon whose face normal is `(1, 1, 1)`, the value of the
default argument, it stores the normalised cross product of its own edges.
The `Triangle` constructor makes this substitution exactly when the normal it
receives is `(1, 1, 1)`.  Vertex counts are taken below `2 ^ 31`. -/
theorem TriangleMesh_normals (sqrt : α → α) (polyMesh : PolygonMesh α)
    (hsize : ∀ poly ∈ polyMesh.polygons, poly.vertices.length < 2 ^ 31) :
    (∃ mesh : TriangleMesh α τ, TriangleMesh.ofPolygonMesh sqrt polyMesh = .ok mesh ∧
      mesh.getTriangles.map (fun t => t.normal) =
        polyMesh.polygons.flatMap (fun poly =>
          if poly.normal = ⟨1, 1, 1⟩ then fanNormals sqrt poly
          else List.replicate (poly.vertices.length - 2) (Vec3.normalize sqrt poly.normal))) ∧
    (∀ (v0 v1 v2 n color : Vec3 α) (t r R a : α),
      (Triangle.new sqrt v0 v1 v2 n color t r R a : Triangle α τ).normal =
        if n = ⟨1, 1, 1⟩ then Vec3.normalize sqrt (Vec3.cross (v1.sub v0) (v2.sub v0))
        else Vec3.normalize sqrt n) := by
  refine ⟨?_, Triangle_new_normal sqrt⟩
  obtain ⟨mesh, hok, htri⟩ := ofPolygonMesh_eq (τ := τ) sqrt polyMesh hsize
  refine ⟨mesh, hok, ?_⟩
  rw [htri]
  clear htri hok hsize
  induction polyMesh.polygons with
  | nil => simp
  | cons poly rest ih =>
    simp only [List.flatMap_cons, List.map_append, ih, fan_normals]
    congr 1
    by_cases hn : poly.normal = ⟨1, 1, 1⟩
    · simp [hn]
    · simp only [hn, if_false, fanNormals]
      rw [List.eq_replicate_iff]
      simp

end Normals

theorem Rat_sqrt_one : Rat.sqrt 1 = 1 := by decide!

theorem Rat_sqrt_25 : Rat.sqrt 25 = 5 := by decide!

/-- The hypothesis of `TriangleMesh_normals` holds of the unit square, whose
two triangles both store the face normal `(0, 0, 1)`. -/
theorem TriangleMesh_normals_witness :
    (∀ poly ∈ squareMesh.polygons, poly.vertices.length < 2 ^ 31) ∧
    ∃ mesh : TriangleMesh ℚ Unit,
      TriangleMesh.ofPolygonMesh Rat.sqrt squareMesh = .ok mesh ∧
      mesh.getTriangles.map (fun t => t.normal) = [⟨0, 0, 1⟩, ⟨0, 0, 1⟩] := by
  have hsize : ∀ poly ∈ squareMesh.polygons, poly.vertices.length < 2 ^ 31 := by
    simp [squareMesh, unitSquare]
  obtain ⟨⟨mesh, hok, hn⟩, -⟩ := TriangleMesh_normals (τ := Unit) Rat.sqrt squareMesh hsize
  refine ⟨hsize, mesh, hok, ?_⟩
  rw [hn]
  simp [squareMesh, unitSquare, Vec3.normalize, Vec3.inversesqrt, Vec3.dot, Vec3.scale,
    Rat_sqrt_one, List.replicate]

/-- C3, counterexample: for the polygon `(0,0,0), (1,0,0), (0,1,0)` with face
normal `(1, 1, 1)` the constructor succeeds and the one triangle it emits
stores `(0, 0, 1)`, which is not the normalised face normal. -/
theorem TriangleMesh_normal_sentinel_counterexample :
    ∃ mesh : TriangleMesh ℚ Unit,
      TriangleMesh.ofPolygonMesh Rat.sqrt slantedNormalMesh = .ok mesh ∧
      mesh.getTriangles.map (fun t => t.normal) = [⟨0, 0, 1⟩] ∧
      ¬ (∀ t ∈ mesh.getTriangles,
          t.normal = Vec3.normalize Rat.sqrt slantedNormalPolygon.normal) := by
  have hsize : ∀ poly ∈ slantedNormalMesh.polygons, poly.vertices.length < 2 ^ 31 := by
    simp [slantedNormalMesh, slantedNormalPolygon]
  obtain ⟨mesh, hok, htri⟩ := ofPolygonMesh_eq (τ := Unit) Rat.sqrt slantedNormalMesh hsize
  have hnormals : mesh.getTriangles.map (fun t => t.normal) = [⟨0, 0, 1⟩] := by
    rw [htri]
    simp [slantedNormalMesh, slantedNormalPolygon, fan, fanTriangle, Triangle.ofVertices,
      Triangle.new, List.range', Vec3.normalize, Vec3.inversesqrt, Vec3.dot, Vec3.scale,
      Vec3.cross, Vec3.sub, Rat_sqrt_one]
  refine ⟨mesh, hok, hnormals, ?_⟩
  intro hall
  have hmap : mesh.getTriangles.map (fun t => t.normal) =
      mesh.getTriangles.map (fun _ => Vec3.normalize Rat.sqrt slantedNormalPolygon.normal) :=
    List.map_congr_left hall
  rw [hnormals, htri] at hmap
  simp [slantedNormalMesh, slantedNormalPolygon, fan, List.range', Vec3.normalize,
    Vec3.scale] at hmap
  exact absurd (hmap.1.trans hmap.2.symm) (by norm_num)

/-! ## Camera -/

/-- C4, evaluation at the view direction `(3, 4, 0)`: the stored direction is
`(3/5, 4/5, 0)`, the constructor sets `hv = (0, 1, 0)`, and `hv · dir = 4/5`,
so `hv` is not orthogonal to the view direction. -/
theorem Camera_hv_not_orthogonal_to_dir :
    (Camera.new Rat.sqrt Vec3.zero Vec3.zero ⟨3, 4, 0⟩ 1 1 1000 1000 1).1.dir = ⟨3 / 5, 4 / 5, 0⟩ ∧
    (Camera.new Rat.sqrt Vec3.zero Vec3.zero ⟨3, 4, 0⟩ 1 1 1000 1000 1).1.hv = ⟨0, 1, 0⟩ ∧
    Vec3.dot (Camera.new Rat.sqrt Vec3.zero Vec3.zero ⟨3, 4, 0⟩ 1 1 1000 1000 1).1.hv
      (Camera.new Rat.sqrt Vec3.zero Vec3.zero ⟨3, 4, 0⟩ 1 1 1000 1000 1).1.dir = 4 / 5 ∧
    (Camera.new Rat.sqrt Vec3.zero Vec3.zero ⟨3, 4, 0⟩ 1 1 1000 1000 1).2 = [] := by
  have h25 : Rat.sqrt (3 * 3 + 4 * 4 + 0 * 0) = 5 := by
    rw [← Rat_sqrt_25]; norm_num
  refine ⟨?_, ?_, ?_, ?_⟩
  · simp only [Camera.new, Vec3.normalize, Vec3.inversesqrt, Vec3.dot, Vec3.scale, h25]
    norm_num
  · simp [Camera.new, Camera.horizontal, Rat_sqrt_one]
  · simp only [Camera.new, Camera.horizontal, Vec3.normalize, Vec3.inversesqrt, Vec3.dot,
      Vec3.scale, h25]
    norm_num [Rat_sqrt_one]
  · simp [Camera.new, Camera.printed]

/-- For every view direction whose `z` component is zero, `vv` is orthogonal
to `hv` and to the stored direction, whatever the square root. -/
theorem Camera_vv_orthogonal {α : Type} [LinearOrderedField α] (sqrt : α → α)
    (pos dir : Vec3 α) (sx sy : α) (rx ry : Nat) (fL : α) (hz : dir.z = 0) :
    Vec3.dot (Camera.new sqrt Vec3.zero pos dir sx sy rx ry fL).1.vv
      (Camera.new sqrt Vec3.zero pos dir sx sy rx ry fL).1.hv = 0 ∧
    Vec3.dot (Camera.new sqrt Vec3.zero pos dir sx sy rx ry fL).1.vv
      (Camera.new sqrt Vec3.zero pos dir sx sy rx ry fL).1.dir = 0 := by
  constructor
  · simp only [Camera.new, Camera.horizontal, Vec3.dot]
    split_ifs <;> simp [Vec3.zero]
  · simp [Camera.new, Vec3.dot, Vec3.normalize, Vec3.scale, hz]

/-- For a non-zero view direction along one of the two horizontal axes, `hv`
is orthogonal to the stored direction. -/
theorem Camera_hv_orthogonal_on_axes {α : Type} [LinearOrderedField α] (sqrt : α → α)
    (hvInit pos dir : Vec3 α) (sx sy : α) (rx ry : Nat) (fL : α) (hz : dir.z = 0)
    (haxis : (dir.x = 0 ∧ dir.y ≠ 0) ∨ (dir.x ≠ 0 ∧ dir.y = 0)) :
    Vec3.dot (Camera.new sqrt hvInit pos dir sx sy rx ry fL).1.hv
      (Camera.new sqrt hvInit pos dir sx sy rx ry fL).1.dir = 0 := by
  rcases haxis with ⟨hx, hy⟩ | ⟨hx, hy⟩
  · rcases lt_or_gt_of_ne hy with h | h
    · simp [Camera.new, Camera.horizontal, Vec3.dot, Vec3.normalize, Vec3.scale, hx, hz, h]
    · have h2 : ¬ dir.y < 0 := not_lt.mpr (le_of_lt h)
      simp [Camera.new, Camera.horizontal, Vec3.dot, Vec3.normalize, Vec3.scale, hx, hz, h, h2]
  · rcases lt_or_gt_of_ne hx with h | h
    · simp [Camera.new, Camera.horizontal, Vec3.dot, Vec3.normalize, Vec3.scale, hx, hy, hz, h]
    · have h2 : ¬ dir.x < 0 := not_lt.mpr (le_of_lt h)
      simp [Camera.new, Camera.horizontal, Vec3.dot, Vec3.normalize, Vec3.scale, hx, hy, hz,
        h, h2]

/-- For a view direction with `z = 0` and both `x` and `y` non-zero, the
constructor sets `hv = (0, 1, 0)` whatever the direction (given `sqrt 1 = 1`),
so that `hv · dir` is the `y` component of the stored direction. -/
theorem Camera_hv_off_axes {α : Type} [LinearOrderedField α] (sqrt : α → α)
    (hone : sqrt 1 = 1) (hvInit pos dir : Vec3 α) (sx sy : α) (rx ry : Nat) (fL : α)
    (hz : dir.z = 0) (hx : dir.x ≠ 0) (hy : dir.y ≠ 0) :
    (Camera.new sqrt hvInit pos dir sx sy rx ry fL).1.hv = ⟨0, 1, 0⟩ ∧
    Vec3.dot (Camera.new sqrt hvInit pos dir sx sy rx ry fL).1.hv
      (Camera.new sqrt hvInit pos dir sx sy rx ry fL).1.dir =
      (Camera.new sqrt hvInit pos dir sx sy rx ry fL).1.dir.y := by
  have hhv : (Camera.new sqrt hvInit pos dir sx sy rx ry fL).1.hv = ⟨0, 1, 0⟩ := by
    simp [Camera.new, Camera.horizontal, hx, hy, hz, hone]
  refine ⟨hhv, ?_⟩
  rw [hhv]
  simp [Vec3.dot]

/-- C5: the constructor prints the error line exactly when the `z` component
of the direction it receives is non-zero, and prints nothing otherwise; in both
cases it yields a camera, whose `dir` is the normalised argument, whose `vv` is
`(0, 0, -1)` and whose `hv` follows the one rule of the constructor body, in
which the test on `z` plays no part. -/
theorem Camera_new_reports_forbidden_direction {α : Type} [LinearOrderedField α]
    (sqrt : α → α) (hvInit pos dir : Vec3 α) (sx sy : α) (rx ry : Nat) (fL : α) :
    ((Camera.new sqrt hvInit pos dir sx sy rx ry fL).2 = [Camera.errorMessage] ↔ dir.z ≠ 0) ∧
    ((Camera.new sqrt hvInit pos dir sx sy rx ry fL).2 = [] ↔ dir.z = 0) ∧
    (Camera.new sqrt hvInit pos dir sx sy rx ry fL).1.dir = Vec3.normalize sqrt dir ∧
    (Camera.new sqrt hvInit pos dir sx sy rx ry fL).1.vv = ⟨0, 0, -1⟩ ∧
    (Camera.new sqrt hvInit pos dir sx sy rx ry fL).1.hv =
      (if dir.x = 0 then
        (if dir.y < 0 then ⟨1, 0, 0⟩ else if dir.y > 0 then ⟨-1, 0, 0⟩ else hvInit)
      else if dir.y = 0 then
        (if dir.x < 0 then ⟨0, -1, 0⟩ else if dir.x > 0 then ⟨0, 1, 0⟩ else hvInit)
      else
        ⟨-dir.z / dir.y * sqrt (1 / (1 + dir.z * dir.z / (dir.y * dir.y))),
          sqrt (1 / (1 + dir.z * dir.z / (dir.y * dir.y))), 0⟩) := by
  refine ⟨?_, ?_, rfl, rfl, ?_⟩
  · by_cases hz : dir.z = 0 <;> simp [Camera.new, Camera.printed, hz]
  · by_cases hz : dir.z = 0 <;> simp [Camera.new, Camera.printed, hz]
  · simp only [Camera.new, Camera.horizontal]

/-! ## The reader on a file that cannot be opened -/

/-- C8: when the file cannot be opened, `readObj` prints `Error in filename`
and returns a mesh without polygons; it neither throws nor runs any loop. -/
theorem readObj_unopened_file {α : Type} [Zero α]
    (parseFloat : List Char → Option α × List Char) (init : Uninitialised) (fuel : Nat) :
    ObjParser.readObj parseFloat init fuel none =
      some (Outcome.returned PolygonMesh.empty [ObjParser.filenameError]) ∧
    (PolygonMesh.empty : PolygonMesh α).polygons = [] ∧
    ObjParser.filenameError = "Error in filename" :=
  ⟨rfl, rfl, rfl⟩

/-! ## Texture flag and material fields -/

section Material

variable {α τ : Type}

/-- After any calls of `setTexture` on a newly constructed object,
`definedTexture()` tells whether `setTexture` was called at all. -/
theorem definedTexture_after_calls (pos color : Vec3 α) (t r R a : α) (texts : List (Option τ)) :
    (texts.foldl BasicObject.setTexture
      (BasicObject.new pos color t r R a : BasicObject α τ)).definedTexture =
      !texts.isEmpty := by
  have key : ∀ (ts : List (Option τ)) (o : BasicObject α τ),
      (ts.foldl BasicObject.setTexture o).definedTexture = (o.definedTexture || !ts.isEmpty) := by
    intro ts
    induction ts with
    | nil => intro o; simp
    | cons x xs ih =>
      intro o
      rw [List.foldl_cons, ih]
      simp [BasicObject.setTexture, BasicObject.definedTexture]
  rw [key]
  simp [BasicObject.new, BasicObject.definedTexture]

/-- C9, evaluation: a newly constructed object reports no texture, and after
`setTexture` with a null pointer the stored texture is null while
`definedTexture()` returns true. -/
theorem definedTexture_true_on_null_texture (pos color : Vec3 α) (t r R a : α) :
    (BasicObject.new pos color t r R a : BasicObject α τ).definedTexture = false ∧
    (BasicObject.new pos color t r R a : BasicObject α τ).getTexture = none ∧
    ((BasicObject.new pos color t r R a : BasicObject α τ).setTexture none).getTexture = none ∧
    ((BasicObject.new pos color t r R a : BasicObject α τ).setTexture none).definedTexture
      = true :=
  ⟨rfl, rfl, rfl, rfl⟩

/-- A `TriangleMesh` just built has a null texture and reports none. -/
theorem TriangleMesh_new_no_texture [Field α] [DecidableEq α] (sqrt : α → α)
    (polyMesh : PolygonMesh α) (mesh : TriangleMesh α τ)
    (h : TriangleMesh.ofPolygonMesh sqrt polyMesh = .ok mesh) :
    mesh.definedTexture = false ∧ mesh.getTexture = none := by
  unfold TriangleMesh.ofPolygonMesh at h
  cases hm : TriangleMesh.meshLoop (τ := τ) sqrt polyMesh.polygons [] with
  | error e => rw [hm] at h; simp at h
  | ok ts =>
    rw [hm] at h
    simp only [Except.ok.injEq] at h
    subst h
    exact ⟨rfl, rfl⟩

/-- The constructor `BasicObject(pos, color, t, r, R, a)` stores `r` as the
refractive index and `R` as the reflexion index, and so do `Plane`, `Sphere`
and `Triangle`, which forward their arguments; `t` and `a` are stored as the
transparency and the albedo. -/
theorem constructors_swap_indices [Field α] [DecidableEq α] (sqrt : α → α)
    (pos color normal v1 v2 : Vec3 α) (radius t r R a : α) :
    ((BasicObject.new pos color t r R a : BasicObject α τ).refractiveIndex = r ∧
      (BasicObject.new pos color t r R a : BasicObject α τ).reflexionIndex = R) ∧
    ((Plane.new sqrt pos normal color t r R a : Plane α τ).refractiveIndex = r ∧
      (Plane.new sqrt pos normal color t r R a : Plane α τ).reflexionIndex = R) ∧
    ((Sphere.new pos color radius t r R a : Sphere α τ).refractiveIndex = r ∧
      (Sphere.new pos color radius t r R a : Sphere α τ).reflexionIndex = R) ∧
    ((Triangle.new sqrt pos v1 v2 normal color t r R a : Triangle α τ).refractiveIndex = r ∧
      (Triangle.new sqrt pos v1 v2 normal color t r R a : Triangle α τ).reflexionIndex = R) ∧
    (BasicObject.new pos color t r R a : BasicObject α τ).transparency = t ∧
    (BasicObject.new pos color t r R a : BasicObject α τ).albedo = a :=
  ⟨⟨rfl, rfl⟩, ⟨rfl, rfl⟩, ⟨rfl, rfl⟩, ⟨rfl, rfl⟩, rfl, rfl⟩

/-- C10, at `r = 1`, `R = 2`: the reflexion index is `2` and the refractive
index is `1`, against the documented `reflexionIndex = r`,
`refractiveIndex = R`. -/
theorem BasicObject_indices_at_one_two :
    (BasicObject.new Vec3.zero ⟨1, 1, 1⟩ 0 1 2 (18 / 100) : BasicObject ℚ Unit).reflexionIndex = 2 ∧
    (BasicObject.new Vec3.zero ⟨1, 1, 1⟩ 0 1 2 (18 / 100) : BasicObject ℚ Unit).refractiveIndex = 1 ∧
    (Plane.new Rat.sqrt Vec3.zero ⟨0, 0, 1⟩ ⟨1, 1, 1⟩ 0 1 2 (18 / 100) :
      Plane ℚ Unit).reflexionIndex = 2 ∧
    (Sphere.new Vec3.zero ⟨1, 1, 1⟩ 1 0 1 2 (18 / 100) : Sphere ℚ Unit).reflexionIndex = 2 ∧
    (Triangle.new Rat.sqrt Vec3.zero ⟨1, 0, 0⟩ ⟨0, 1, 0⟩ ⟨0, 0, 1⟩ ⟨1, 1, 1⟩ 0 1 2 (18 / 100) :
      Triangle ℚ Unit).reflexionIndex = 2 :=
  ⟨rfl, rfl, rfl, rfl, rfl⟩

end Material

/-! ## The reader on face records -/

section Faces

variable {α : Type}

theorem readVertices_of_type_ne [Zero α] (parseFloat : List Char → Option α × List Char) (fuel : Nat)
    (st : ParserState α) (h : st.type ≠ "v") :
    ObjParser.readVertices parseFloat fuel st = some st := by
  cases fuel <;> simp [ObjParser.readVertices, h]

theorem readTextures_of_type_ne [Zero α] (parseFloat : List Char → Option α × List Char) (fuel : Nat)
    (st : ParserState α) (h : st.type ≠ "vt") :
    ObjParser.readTextures parseFloat fuel st = some st := by
  cases fuel <;> simp [ObjParser.readTextures, h]

theorem readNormals_of_type_ne [Zero α] (parseFloat : List Char → Option α × List Char) (fuel : Nat)
    (st : ParserState α) (h : st.type ≠ "vn") :
    ObjParser.readNormals parseFloat fuel st = some st := by
  cases fuel <;> simp [ObjParser.readNormals, h]

theorem readTriplets_zero (st : ParserState α) :
    ObjParser.readTriplets 0 st =
      if (ObjParser.moreTriplets st.objFile).2 then none
      else some (.ok { st with objFile := (ObjParser.moreTriplets st.objFile).1 }) := by
  rfl

theorem readTriplets_succ (fuel : Nat) (st : ParserState α) :
    ObjParser.readTriplets (fuel + 1) st =
      if (ObjParser.moreTriplets st.objFile).2 then
        match ObjParser.readTriplet
            { st with objFile := (ObjParser.moreTriplets st.objFile).1 } with
        | .error what => some (.error what)
        | .ok st1 => ObjParser.readTriplets fuel st1
      else some (.ok { st with objFile := (ObjParser.moreTriplets st.objFile).1 }) := by
  rfl

theorem moreTriplets_of_failed (s : IStream) (hf : s.failbit = true) (he : s.eofbit = false) :
    ObjParser.moreTriplets s = (s, true) := by
  obtain ⟨buf, f, e⟩ := s
  simp only at hf he
  subst hf he
  simp [ObjParser.moreTriplets, IStream.peek, IStream.good, IStream.eof]

theorem readInt_of_failed (s : IStream) (n : Int) (hf : s.failbit = true) :
    s.readInt n = (s, n) := by
  obtain ⟨buf, f, e⟩ := s
  simp only at hf
  subst hf
  simp [IStream.readInt, IStream.sentry, IStream.good]

theorem readChar_of_failed (s : IStream) (c : Char) (hf : s.failbit = true) :
    s.readChar c = (s, c) := by
  obtain ⟨buf, f, e⟩ := s
  simp only at hf
  subst hf
  simp [IStream.readChar, IStream.sentry, IStream.good]

/-- Once `failbit` is set with `eofbit` clear and both separators are `'/'`,
the loop over the triplets never ends: every extraction leaves the variables
as they are, the test passes, and the loop condition stays true. -/
theorem readTriplets_stuck : ∀ (fuel : Nat) (st : ParserState α),
    st.objFile.failbit = true → st.objFile.eofbit = false → st.c2 = '/' → st.c4 = '/' →
    ObjParser.readTriplets fuel st = none := by
  intro fuel
  induction fuel with
  | zero =>
    intro st hf he _ _
    rw [readTriplets_zero, moreTriplets_of_failed _ hf he]
    rfl
  | succ fuel ih =>
    intro st hf he h2 h4
    rw [readTriplets_succ, moreTriplets_of_failed _ hf he]
    simp only [ObjParser.readTriplet, readInt_of_failed _ _ hf, readChar_of_failed _ _ hf, h2,
      h4, if_true, ne_eq, not_true_eq_false, or_self, if_false]
    exact ih _ hf he rfl rfl

theorem stuckAfter_zero (st : ParserState α) :
    ObjParser.stuckAfter 0 st =
      (st.objFile.failbit && !st.objFile.eofbit && st.c2 == '/' && st.c4 == '/') := by
  rfl

theorem stuckAfter_succ (k : Nat) (st : ParserState α) :
    ObjParser.stuckAfter (k + 1) st =
      ((ObjParser.moreTriplets st.objFile).2 &&
        match ObjParser.readTriplet
            { st with objFile := (ObjParser.moreTriplets st.objFile).1 } with
        | .ok st1 => ObjParser.stuckAfter k st1
        | .error _ => false) := by
  rfl

theorem readTriplets_none_of_stuckAfter : ∀ (k : Nat) (st : ParserState α),
    ObjParser.stuckAfter k st = true → ∀ fuel, ObjParser.readTriplets fuel st = none := by
  intro k
  induction k with
  | zero =>
    intro st h fuel
    simp only [stuckAfter_zero, Bool.and_eq_true, Bool.not_eq_true', beq_iff_eq] at h
    exact readTriplets_stuck fuel st h.1.1.1 h.1.1.2 h.1.2 h.2
  | succ k ih =>
    intro st h fuel
    rw [stuckAfter_succ, Bool.and_eq_true] at h
    obtain ⟨hmore, hbody⟩ := h
    cases fuel with
    | zero => rw [readTriplets_zero, if_pos hmore]
    | succ fuel =>
      rw [readTriplets_succ, if_pos hmore]
      cases hb : ObjParser.readTriplet
          { st with objFile := (ObjParser.moreTriplets st.objFile).1 } with
      | error what => rw [hb] at hbody; simp at hbody
      | ok st1 =>
        rw [hb] at hbody
        exact ih st1 hbody fuel

theorem readFaces_zero [Zero α] (bound : Nat) (st : ParserState α) :
    ObjParser.readFaces bound 0 st =
      if st.type = "f" then none else some (.returned st.mesh []) := by
  rfl

theorem readFaces_succ [Zero α] (bound fuel : Nat) (st : ParserState α) :
    ObjParser.readFaces bound (fuel + 1) st =
      if st.type = "f" then
        match ObjParser.readTriplets bound
            { st with c1Vect := [], c3Vect := [], c5Vect := [] } with
        | none => none
        | some (.error what) => some (.thrown what)
        | some (.ok st1) =>
          match ObjParser.buildPolygon st1.v st1.vt st1.vn st1.c1Vect st1.c3Vect st1.c5Vect with
          | none => some .outOfRange
          | some poly =>
            if st1.objFile.eof then some (.returned (st1.mesh.addPolygon poly) [])
            else
              ObjParser.readFaces bound fuel
                { st1 with
                  mesh := st1.mesh.addPolygon poly
                  objFile := (st1.objFile.readString st1.type).1
                  type := (st1.objFile.readString st1.type).2 }
      else some (.returned st.mesh []) := rfl

theorem readFaces_succ_of_diverging [Zero α] (bound fuel : Nat) (st : ParserState α)
    (hf : st.type = "f")
    (hnone : ObjParser.readTriplets bound
      { st with c1Vect := [], c3Vect := [], c5Vect := [] } = none) :
    ObjParser.readFaces bound (fuel + 1) st = none := by
  rw [readFaces_succ, if_pos hf, hnone]

end Faces

/-! ## The polygon built from the indices of a face record -/

section BuildPolygon

variable {α : Type}

theorem addCorners_eq_some (v : List (Vec3 α)) (vt : List (Vec2 α)) (c1Vect c3Vect : List Int) :
    ∀ (ks : List Nat) (poly built : Polygon α),
      ObjParser.addCorners v vt c1Vect c3Vect ks poly = some built →
      built.vertices.map some =
        poly.vertices.map some ++
          ks.map (fun k => (c1Vect[k]?).bind (fun a => ObjParser.at? v (a - 1))) ∧
      built.textureCoordinates.map some =
        poly.textureCoordinates.map some ++
          ks.map (fun k => (c3Vect[k]?).bind (fun b => ObjParser.at? vt (b - 1))) := by
  intro ks
  induction ks with
  | nil =>
    intro poly built h
    simp only [ObjParser.addCorners, Option.some.injEq] at h
    subst h
    simp
  | cons k ks ih =>
    intro poly built h
    rw [ObjParser.addCorners] at h
    cases ha : c1Vect[k]? with
    | none => rw [ha] at h; simp at h
    | some a =>
      cases hb : c3Vect[k]? with
      | none => rw [ha, hb] at h; simp at h
      | some b =>
        rw [ha, hb] at h
        simp only at h
        cases hv : ObjParser.at? v (a - 1) with
        | none => rw [hv] at h; simp at h
        | some vertex =>
          cases ht : ObjParser.at? vt (b - 1) with
          | none => rw [hv, ht] at h; simp at h
          | some texture =>
            rw [hv, ht] at h
            simp only at h
            obtain ⟨h1, h2⟩ := ih _ _ h
            constructor
            · rw [h1]
              simp [Polygon.addVertex, Polygon.addTexture, ha, hv]
            · rw [h2]
              simp [Polygon.addVertex, Polygon.addTexture, hb, ht]

/-- The polygon built from the index vectors of a face record: its `k`-th
vertex is `v[c1Vect[k] - 1]` and its `k`-th texture coordinate is
`vt[c3Vect[k] - 1]`, the indices being 1-based, while its face normal is
`vn[c5Vect[0]]`, the index being used as it is. -/
theorem buildPolygon_eq_some [Zero α] (v : List (Vec3 α)) (vt : List (Vec2 α)) (vn : List (Vec3 α))
    (c1Vect c3Vect c5Vect : List Int) (built : Polygon α)
    (h : ObjParser.buildPolygon v vt vn c1Vect c3Vect c5Vect = some built) :
    built.vertices.map some = c1Vect.map (fun a => ObjParser.at? v (a - 1)) ∧
    built.textureCoordinates.map some =
      (List.range c1Vect.length).map
        (fun k => (c3Vect[k]?).bind (fun b => ObjParser.at? vt (b - 1))) ∧
    ∃ c, c5Vect[0]? = some c ∧ ObjParser.at? vn c = some built.normal := by
  unfold ObjParser.buildPolygon at h
  cases hc : ObjParser.addCorners v vt c1Vect c3Vect (List.range c1Vect.length)
      { pos := Vec3.zero, vertices := [], textureCoordinates := [], normal := Vec3.zero } with
  | none => rw [hc] at h; simp at h
  | some poly =>
    rw [hc] at h
    simp only at h
    obtain ⟨h1, h2⟩ := addCorners_eq_some v vt c1Vect c3Vect _ _ _ hc
    cases h5 : c5Vect[0]? with
    | none => rw [h5] at h; simp at h
    | some c =>
      rw [h5] at h
      simp only at h
      cases hn : ObjParser.at? vn c with
      | none => rw [hn] at h; simp at h
      | some n =>
        rw [hn] at h
        simp only [Option.some.injEq] at h
        subst h
        refine ⟨?_, ?_, c, rfl, ?_⟩
        · simp only [Polygon.setNormal, h1, List.map_nil, List.nil_append]
          apply List.ext_getElem?
          intro i
          simp only [List.getElem?_map, List.getElem?_range]
          by_cases hi : i < c1Vect.length
          · simp [List.getElem?_range hi, List.getElem?_eq_getElem hi]
          · have hi2 : c1Vect.length ≤ i := by omega
            simp [List.getElem?_eq_none hi2, List.getElem?_eq_none
              (show (List.range c1Vect.length).length ≤ i by simpa using hi2)]
        · simp only [Polygon.setNormal, h2, List.map_nil, List.nil_append]
        · simp [Polygon.setNormal, hn]

end BuildPolygon

/-! ## More iterations allowed change no result of the reader -/

section Fuel

variable {α : Type} [Zero α]

theorem readVertices_mono (parseFloat : List Char → Option α × List Char) :
    ∀ (fuel : Nat) (st st1 : ParserState α),
      ObjParser.readVertices parseFloat fuel st = some st1 →
      ObjParser.readVertices parseFloat (fuel + 1) st = some st1 := by
  intro fuel
  induction fuel with
  | zero =>
    intro st st1 h
    by_cases ht : st.type = "v"
    · simp [ObjParser.readVertices, ht] at h
    · rw [readVertices_of_type_ne _ _ _ ht] at h ⊢
      exact h
  | succ fuel ih =>
    intro st st1 h
    by_cases ht : st.type = "v"
    · have e : ∀ k, ObjParser.readVertices parseFloat (k + 1) st =
          ObjParser.readVertices parseFloat k (ObjParser.readVertex parseFloat st) := by
        intro k; simp [ObjParser.readVertices, ht]
      rw [e] at h ⊢
      exact ih _ _ h
    · rw [readVertices_of_type_ne _ _ _ ht] at h ⊢
      exact h

theorem readTextures_mono (parseFloat : List Char → Option α × List Char) :
    ∀ (fuel : Nat) (st st1 : ParserState α),
      ObjParser.readTextures parseFloat fuel st = some st1 →
      ObjParser.readTextures parseFloat (fuel + 1) st = some st1 := by
  intro fuel
  induction fuel with
  | zero =>
    intro st st1 h
    by_cases ht : st.type = "vt"
    · simp [ObjParser.readTextures, ht] at h
    · rw [readTextures_of_type_ne _ _ _ ht] at h ⊢
      exact h
  | succ fuel ih =>
    intro st st1 h
    by_cases ht : st.type = "vt"
    · have e : ∀ k, ObjParser.readTextures parseFloat (k + 1) st =
          ObjParser.readTextures parseFloat k (ObjParser.readTexture parseFloat st) := by
        intro k; simp [ObjParser.readTextures, ht]
      rw [e] at h ⊢
      exact ih _ _ h
    · rw [readTextures_of_type_ne _ _ _ ht] at h ⊢
      exact h

theorem readNormals_mono (parseFloat : List Char → Option α × List Char) :
    ∀ (fuel : Nat) (st st1 : ParserState α),
      ObjParser.readNormals parseFloat fuel st = some st1 →
      ObjParser.readNormals parseFloat (fuel + 1) st = some st1 := by
  intro fuel
  induction fuel with
  | zero =>
    intro st st1 h
    by_cases ht : st.type = "vn"
    · simp [ObjParser.readNormals, ht] at h
    · rw [readNormals_of_type_ne _ _ _ ht] at h ⊢
      exact h
  | succ fuel ih =>
    intro st st1 h
    by_cases ht : st.type = "vn"
    · have e : ∀ k, ObjParser.readNormals parseFloat (k + 1) st =
          ObjParser.readNormals parseFloat k (ObjParser.readNormal parseFloat st) := by
        intro k; simp [ObjParser.readNormals, ht]
      rw [e] at h ⊢
      exact ih _ _ h
    · rw [readNormals_of_type_ne _ _ _ ht] at h ⊢
      exact h

omit [Zero α] in
theorem readTriplets_mono :
    ∀ (fuel : Nat) (st : ParserState α) (r : Except String (ParserState α)),
      ObjParser.readTriplets fuel st = some r →
      ObjParser.readTriplets (fuel + 1) st = some r := by
  intro fuel
  induction fuel with
  | zero =>
    intro st r h
    rw [readTriplets_zero] at h
    rw [readTriplets_succ]
    by_cases hm : (ObjParser.moreTriplets st.objFile).2 = true
    · rw [if_pos hm] at h; exact absurd h (by simp)
    · rw [if_neg hm] at h ⊢; exact h
  | succ fuel ih =>
    intro st r h
    rw [readTriplets_succ] at h
    rw [readTriplets_succ]
    by_cases hm : (ObjParser.moreTriplets st.objFile).2 = true
    · rw [if_pos hm] at h ⊢
      cases hb : ObjParser.readTriplet
          { st with objFile := (ObjParser.moreTriplets st.objFile).1 } with
      | error what => rw [hb] at h; exact h
      | ok st1 => rw [hb] at h; exact ih _ _ h
    · rw [if_neg hm] at h ⊢; exact h

theorem readFaces_mono :
    ∀ (fuel bound : Nat) (st : ParserState α) (o : Outcome α),
      ObjParser.readFaces bound fuel st = some o →
      ObjParser.readFaces (bound + 1) (fuel + 1) st = some o := by
  intro fuel
  induction fuel with
  | zero =>
    intro bound st o h
    rw [readFaces_zero] at h
    rw [readFaces_succ]
    by_cases ht : st.type = "f"
    · rw [if_pos ht] at h; exact absurd h (by simp)
    · rw [if_neg ht] at h ⊢; exact h
  | succ fuel ih =>
    intro bound st o h
    rw [readFaces_succ] at h
    rw [readFaces_succ]
    by_cases ht : st.type = "f"
    · rw [if_pos ht] at h ⊢
      cases hr : ObjParser.readTriplets bound
          { st with c1Vect := [], c3Vect := [], c5Vect := [] } with
      | none => rw [hr] at h; exact absurd h (by simp)
      | some r =>
        rw [hr] at h
        rw [readTriplets_mono _ _ _ hr]
        cases r with
        | error what => exact h
        | ok st1 =>
          simp only at h ⊢
          cases hp : ObjParser.buildPolygon st1.v st1.vt st1.vn st1.c1Vect st1.c3Vect
              st1.c5Vect with
          | none => rw [hp] at h; exact h
          | some poly =>
            rw [hp] at h
            simp only at h ⊢
            by_cases he : st1.objFile.eof = true
            · rw [if_pos he] at h ⊢; exact h
            · rw [if_neg he] at h ⊢; exact ih _ _ _ h
    · rw [if_neg ht] at h ⊢; exact h

/-- A result of `readObj` obtained within some number of iterations is the
result for every larger number. -/
theorem readObj_mono (parseFloat : List Char → Option α × List Char) (init : Uninitialised)
    (file : Option (List Char)) (o : Outcome α) (fuel : Nat)
    (h : ObjParser.readObj parseFloat init fuel file = some o) :
    ∀ more : Nat, fuel ≤ more → ObjParser.readObj parseFloat init more file = some o := by
  have step : ∀ k, ObjParser.readObj parseFloat init k file = some o →
      ObjParser.readObj parseFloat init (k + 1) file = some o := by
    intro k hk
    cases file with
    | none => exact hk
    | some content =>
      simp only [ObjParser.readObj] at hk ⊢
      cases h1 : ObjParser.readVertices parseFloat k (ObjParser.firstRecord init content) with
      | none => rw [h1] at hk; exact absurd hk (by simp)
      | some st1 =>
        rw [h1] at hk
        rw [readVertices_mono _ _ _ _ h1]
        simp only at hk ⊢
        cases h2 : ObjParser.readTextures parseFloat k st1 with
        | none => rw [h2] at hk; exact absurd hk (by simp)
        | some st2 =>
          rw [h2] at hk
          rw [readTextures_mono _ _ _ _ h2]
          simp only at hk ⊢
          cases h3 : ObjParser.readNormals parseFloat k st2 with
          | none => rw [h3] at hk; exact absurd hk (by simp)
          | some st3 =>
            rw [h3] at hk
            rw [readNormals_mono _ _ _ _ h3]
            simp only at hk ⊢
            exact readFaces_mono _ _ _ _ hk
  intro more hle
  induction more, hle using Nat.le_induction with
  | base => exact h
  | succ n _ ih => exact step n ih

end Fuel

/-- C6, evaluation.  First file: three `v`, three `vt` and two `vn` records,
then the face record `f 1/1/1 2/2/1 3/3`, whose last group has a single
slash; `readObj` throws nothing and returns a mesh holding the polygon built
from the three groups.  Second file: the face record `f 1/2/3/4`; whatever the
number of iterations allowed, `readObj` neither throws nor returns, the loop
over the triplets going on for ever. -/
theorem readObj_accepts_malformed_face :
    (∀ more : Nat,
      ObjParser.readObj parseDecimal blankLocals (4 + more) (some objShortTriplet) =
        some (Outcome.returned
          { pos := Vec3.zero, polygons := [parsedTriangle ⟨1, 0, 0⟩] } [])) ∧
    ∀ fuel : Nat, ObjParser.readObj parseDecimal blankLocals fuel (some objFourIndices) = none := by
  refine ⟨fun more => readObj_mono _ _ _ _ 4 (by decide!) _ (Nat.le_add_right 4 more), ?_⟩
  intro fuel
  have htype : (ObjParser.firstRecord blankLocals objFourIndices : ParserState ℚ).type = "f" := by
    decide!
  have hstuck : ObjParser.stuckAfter 2
      { (ObjParser.firstRecord blankLocals objFourIndices : ParserState ℚ) with
        c1Vect := [], c3Vect := [], c5Vect := [] } = true := by
    decide!
  have hv : (ObjParser.firstRecord blankLocals objFourIndices : ParserState ℚ).type ≠ "v" := by
    rw [htype]; decide
  have hvt : (ObjParser.firstRecord blankLocals objFourIndices : ParserState ℚ).type ≠ "vt" := by
    rw [htype]; decide
  have hvn : (ObjParser.firstRecord blankLocals objFourIndices : ParserState ℚ).type ≠ "vn" := by
    rw [htype]; decide
  simp only [ObjParser.readObj, readVertices_of_type_ne _ _ _ hv,
    readTextures_of_type_ne _ _ _ hvt, readNormals_of_type_ne _ _ _ hvn]
  cases fuel with
  | zero => rw [readFaces_zero, if_pos htype]
  | succ fuel =>
    exact readFaces_succ_of_diverging _ _ _ htype
      (readTriplets_none_of_stuckAfter 2 _ hstuck _)

/-- A face record whose indices are separated by spaces makes `readObj` throw
the format error: the first separator read is the digit `2`. -/
theorem readObj_throws_on_spaces :
    ∀ more : Nat,
      ObjParser.readObj parseDecimal blankLocals (4 + more) (some objSpaces) =
        some (Outcome.thrown "Error in the obj file format") :=
  fun more => readObj_mono _ _ _ _ 4 (by decide!) _ (Nat.le_add_right 4 more)

/-- With a single `vn` record, the normal index `1` of a face record makes
`readObj` index the vector of normals outside its bounds. -/
theorem readObj_single_normal_out_of_range :
    ∀ more : Nat,
      ObjParser.readObj parseDecimal blankLocals (4 + more) (some objSingleNormal) =
        some Outcome.outOfRange :=
  fun more => readObj_mono _ _ _ _ 4 (by decide!) _ (Nat.le_add_right 4 more)

/-- C7, evaluation.  The file has the normals `vn 0 0 1` and `vn 1 0 0`, in
this order, and the face record `f 1/1/1 2/2/1 3/3/1`: the polygon returned
has the three vertices and texture coordinates named by the 1-based indices,
and the face normal `(1, 0, 0)`, the second `vn` entry, while the normal index
of the record is `1`. -/
theorem readObj_normal_index_zero_based :
    (∀ more : Nat,
      ObjParser.readObj parseDecimal blankLocals (4 + more) (some objFirstNormal) =
        some (Outcome.returned
          { pos := Vec3.zero, polygons := [parsedTriangle ⟨1, 0, 0⟩] } [])) ∧
    ObjParser.buildPolygon
        [(⟨0, 0, 0⟩ : Vec3 ℚ), ⟨1, 0, 0⟩, ⟨0, 1, 0⟩] [⟨0, 0⟩, ⟨1, 0⟩, ⟨0, 1⟩]
        [⟨0, 0, 1⟩, ⟨1, 0, 0⟩] [1, 2, 3] [1, 2, 3] [1, 1, 1] =
      some (parsedTriangle ⟨1, 0, 0⟩) := by
  refine ⟨fun more => readObj_mono _ _ _ _ 4 (by decide!) _ (Nat.le_add_right 4 more), ?_⟩
  decide!

/-! ## Moving a mesh -/

section Offset

variable {α τ : Type} [Add α]

theorem offsetLoop_mesh (position : Vec3 α) :
    ∀ (ts : List (Triangle α τ)) (state : TriangleMesh α τ × Option (Triangle α τ)),
      (TriangleMesh.offsetLoop position ts state).1 = state.1 := by
  intro ts
  induction ts with
  | nil => intro state; rfl
  | cons t rest ih => intro state; rw [TriangleMesh.offsetLoop, ih]

/-- The loop does move its loop variable: after the loop it holds the last
triangle of the mesh, moved by `position`. -/
theorem offsetLoop_variable (position : Vec3 α) :
    ∀ (ts : List (Triangle α τ)) (state : TriangleMesh α τ × Option (Triangle α τ)),
      (TriangleMesh.offsetLoop position ts state).2 =
        match ts.getLast? with
        | some t => some (Triangle.offset t position)
        | none => state.2 := by
  intro ts
  induction ts with
  | nil => intro state; rfl
  | cons t rest ih =>
    intro state
    rw [TriangleMesh.offsetLoop, ih]
    cases rest with
    | nil => rfl
    | cons u us =>
      have h : (t :: u :: us).getLast? = (u :: us).getLast? := List.getLast?_cons_cons
      rw [h]
      cases hl : (u :: us).getLast? with
      | none => simp at hl
      | some w => rfl

/-- The method `TriangleMesh::offset` leaves the mesh as it was. -/
theorem TriangleMesh_offset_eq_self (m : TriangleMesh α τ) (position : Vec3 α) :
    m.offset position = m := by
  unfold TriangleMesh.offset
  rw [offsetLoop_mesh]

end Offset

/-- C11, evaluation: on the mesh holding the triangle `(0,0,0), (1,0,0),
(0,1,0)`, after `offset((1, 2, 3))` the triangle returned by `getTriangles()`
still has the corners `(0,0,0), (1,0,0), (0,1,0)`, while `Triangle::offset`
with the same argument gives `(1,2,3), (2,2,3), (1,3,3)`. -/
theorem TriangleMesh_offset_moves_nothing :
    (oneTriangleMesh.offset ⟨1, 2, 3⟩).getTriangles.map (fun t => (t.pos, t.pos1, t.pos2)) =
      [(⟨0, 0, 0⟩, ⟨1, 0, 0⟩, ⟨0, 1, 0⟩)] ∧
    oneTriangleMesh.getTriangles.map
        (fun t => ((Triangle.offset t ⟨1, 2, 3⟩).pos, (Triangle.offset t ⟨1, 2, 3⟩).pos1,
          (Triangle.offset t ⟨1, 2, 3⟩).pos2)) =
      [(⟨1, 2, 3⟩, ⟨2, 2, 3⟩, ⟨1, 3, 3⟩)] := by
  constructor <;> decide!

/-! ## Polygons with fewer than three vertices -/

section SmallPolygons

variable {α τ : Type} [Field α] [DecidableEq α]

theorem polygonTriangles_of_small (sqrt : α → α) (poly : Polygon α)
    (h : poly.vertices.length < 3) :
    (TriangleMesh.polygonTriangles sqrt poly : Except Fault (List (Triangle α τ))) = .ok [] := by
  have hsize : poly.vertices.length < 2 ^ 31 := by omega
  rw [polygonTriangles_eq sqrt poly hsize]
  have h0 : poly.vertices.length - 2 = 0 := by omega
  simp [fan, h0]

/-- C12: for a polygon with fewer than three vertices the constructor's loop
makes no access to the vertex vector and emits no triangle; the constructor
returns, and the number of its triangles is the sum over the polygons of
`max (n - 2) 0`.  Vertex counts are taken below `2 ^ 31`. -/
theorem TriangleMesh_triangle_count (sqrt : α → α) (polyMesh : PolygonMesh α)
    (hsize : ∀ poly ∈ polyMesh.polygons, poly.vertices.length < 2 ^ 31) :
    (∀ poly : Polygon α, poly.vertices.length < 3 →
      (TriangleMesh.polygonTriangles sqrt poly : Except Fault (List (Triangle α τ))) =
        .ok []) ∧
    ∃ mesh : TriangleMesh α τ, TriangleMesh.ofPolygonMesh sqrt polyMesh = .ok mesh ∧
      (mesh.getTriangles.length : Int) =
        (polyMesh.polygons.map
          (fun poly => max ((poly.vertices.length : Int) - 2) 0)).sum := by
  refine ⟨polygonTriangles_of_small sqrt, ?_⟩
  obtain ⟨mesh, hok, htri⟩ := ofPolygonMesh_eq (τ := τ) sqrt polyMesh hsize
  refine ⟨mesh, hok, ?_⟩
  rw [htri]
  clear htri hok hsize
  induction polyMesh.polygons with
  | nil => simp
  | cons poly rest ih =>
    simp only [List.flatMap_cons, List.length_append, List.map_cons, List.sum_cons]
    rw [Nat.cast_add, ih]
    congr 1
    simp only [fan, List.length_map, List.length_range']
    omega

end SmallPolygons

/-- The mesh with polygons of 0, 1, 2 and 4 vertices yields two triangles, both
from the polygon with four vertices. -/
theorem TriangleMesh_triangle_count_witness :
    (∀ poly ∈ mixedMesh.polygons, poly.vertices.length < 2 ^ 31) ∧
    (TriangleMesh.polygonTriangles Rat.sqrt (flatPolygon [⟨0, 0, 0⟩, ⟨1, 0, 0⟩]) :
      Except Fault (List (Triangle ℚ Unit))) = .ok [] ∧
    ∃ mesh : TriangleMesh ℚ Unit, TriangleMesh.ofPolygonMesh Rat.sqrt mixedMesh = .ok mesh ∧
      (mesh.getTriangles.length : Int) = 2 := by
  have hsize : ∀ poly ∈ mixedMesh.polygons, poly.vertices.length < 2 ^ 31 := by
    simp [mixedMesh, flatPolygon, unitSquare]
  obtain ⟨hsmall, mesh, hok, hcount⟩ :=
    TriangleMesh_triangle_count (τ := Unit) Rat.sqrt mixedMesh hsize
  refine ⟨hsize, hsmall _ (by simp [flatPolygon]), mesh, hok, ?_⟩
  rw [hcount]
  simp [mixedMesh, flatPolygon, unitSquare]

/-! ## Accesses of the reader to its vectors -/

section Accesses

variable {α : Type}

/-- An index inside `1 .. size`, lowered by one, is inside the vector. -/
theorem at?_pred_of_inRange {β : Type} (xs : List β) (i : Int) (h1 : 1 ≤ i)
    (h2 : i ≤ (xs.length : Int)) : ∃ x, ObjParser.at? xs (i - 1) = some x := by
  have hlt : (i - 1).toNat < xs.length := by omega
  refine ⟨xs[(i - 1).toNat], ?_⟩
  have hpos : (0 : Int) ≤ i - 1 := by omega
  simp [ObjParser.at?, hpos, List.getElem?_eq_getElem hlt]

/-- The index `size`, used as it is, is outside the vector. -/
theorem at?_length {β : Type} (xs : List β) : ObjParser.at? xs (xs.length : Int) = none := by
  simp [ObjParser.at?]

/-- With vertex and texture indices inside `1 .. size`, the loop that adds the
corners of a polygon makes no access outside `v` and `vt`. -/
theorem addCorners_of_inRange (v : List (Vec3 α)) (vt : List (Vec2 α))
    (c1Vect c3Vect : List Int) :
    ∀ (ks : List Nat) (poly : Polygon α),
      (∀ k ∈ ks, ∃ a b, c1Vect[k]? = some a ∧ c3Vect[k]? = some b ∧
        1 ≤ a ∧ a ≤ (v.length : Int) ∧ 1 ≤ b ∧ b ≤ (vt.length : Int)) →
      ∃ built, ObjParser.addCorners v vt c1Vect c3Vect ks poly = some built := by
  intro ks
  induction ks with
  | nil => intro poly _; exact ⟨poly, rfl⟩
  | cons k ks ih =>
    intro poly h
    obtain ⟨a, b, ha, hb, ha1, ha2, hb1, hb2⟩ := h k (List.mem_cons_self _ _)
    obtain ⟨vertex, hv⟩ := at?_pred_of_inRange v a ha1 ha2
    obtain ⟨texture, ht⟩ := at?_pred_of_inRange vt b hb1 hb2
    rw [ObjParser.addCorners, ha, hb]
    simp only [hv, ht]
    exact ih _ (fun j hj => h j (List.mem_cons_of_mem _ hj))

/-- A face record whose first normal index is the number of `vn` entries makes
the reader index `vn` outside its bounds, whatever the other indices. -/
theorem buildPolygon_none_of_last_normal [Zero α] (v : List (Vec3 α)) (vt : List (Vec2 α))
    (vn : List (Vec3 α)) (c1Vect c3Vect c5Vect : List Int)
    (h : c5Vect[0]? = some (vn.length : Int)) :
    ObjParser.buildPolygon v vt vn c1Vect c3Vect c5Vect = none := by
  unfold ObjParser.buildPolygon
  cases ObjParser.addCorners v vt c1Vect c3Vect (List.range c1Vect.length)
      { pos := Vec3.zero, vertices := [], textureCoordinates := [], normal := Vec3.zero } with
  | none => rfl
  | some poly => simp only [h, at?_length]

end Accesses

/-- A well-formed file that ends with a line feed after its last face record:
the loop over the face records runs once more on the stream that has failed,
reads no triplet, and takes `c5Vect[0]` from the emptied vector of indices. -/
theorem readObj_trailing_newline_out_of_range :
    ∀ more : Nat,
      ObjParser.readObj parseDecimal blankLocals (4 + more) (some objTrailingNewline) =
        some Outcome.outOfRange :=
  fun more => readObj_mono _ _ _ _ 4 (by decide!) _ (Nat.le_add_right 4 more)

/-- C13, evaluation.  The file has three `v`, three `vt` and one `vn` record
and the well-formed face record `f 1/1/1 2/2/1 3/3/1`, every index of which
lies between 1 and the number of entries read.  The accesses to `v` and `vt`
are inside the vectors, the access `vn[c5Vect[0]] = vn[1]` is outside the
vector of normals, which has one entry, and `readObj` ends on that access. -/
theorem readObj_normal_access_out_of_range :
    (∃ built, ObjParser.addCorners
        [(⟨0, 0, 0⟩ : Vec3 ℚ), ⟨1, 0, 0⟩, ⟨0, 1, 0⟩] [⟨0, 0⟩, ⟨1, 0⟩, ⟨0, 1⟩]
        [1, 2, 3] [1, 2, 3] (List.range 3)
        { pos := Vec3.zero, vertices := [], textureCoordinates := [], normal := Vec3.zero } =
      some built) ∧
    ObjParser.at? [(⟨0, 0, 1⟩ : Vec3 ℚ)] 1 = none ∧
    ObjParser.buildPolygon
        [(⟨0, 0, 0⟩ : Vec3 ℚ), ⟨1, 0, 0⟩, ⟨0, 1, 0⟩] [⟨0, 0⟩, ⟨1, 0⟩, ⟨0, 1⟩]
        [⟨0, 0, 1⟩] [1, 2, 3] [1, 2, 3] [1, 1, 1] = none ∧
    ∀ more : Nat,
      ObjParser.readObj parseDecimal blankLocals (4 + more) (some objSingleNormal) =
        some Outcome.outOfRange := by
  refine ⟨?_, by decide!, by decide!, readObj_single_normal_out_of_range⟩
  apply addCorners_of_inRange
  intro k hk
  rw [List.mem_range] at hk
  interval_cases k <;> simp

end BalanceTonRayon
